import Mathlib

/-!
# Reference-counted handles of `sp.h` and `shared_ptr.h` (namespace `POC`)

A shallow embedding of the complete variant `sp.h`: the control block with its
two counters, the `shared_ptr` and `weak_ptr` handles, and every handle
operation as a function on an explicit program state.  The simple variant
`shared_ptr.h` is embedded the same way in the namespace `POC.simple`.

Modelling conventions.

* A raw address is a `Nat`; `0` is `nullptr`.
* `_pcb` is an `Option Nat`: `none` is the null pointer, `some b` the address
  of control block `b` in the heap.
* The counters are `std::atomic<long long>`; they are modelled as `Int`.  A
  counter counts live handles, each of which occupies memory, so the 64-bit
  range is never left and no wrap-around is modelled.  Operations are
  executed one after the other (no interleaving).
* `deleter_calls` and `deleted` are ghost fields of a control block: the
  number of times `_deleter(owned_ptr)` ran and the number of times
  `delete this` ran.  The record of a deleted block stays readable in the
  model, so that "deleted at most once" and "no handle refers to a deleted
  block" are statements to prove rather than conventions.
* Every C++ object of handle type is a slot in `sps` / `wps`; a slot holding
  `none` is an object whose lifetime has ended.  Temporaries are objects too.
* Dereferencing a null `_pcb` is undefined behaviour: `Err.null_deref`.
  `throw std::bad_weak_ptr{}` is `Err.bad_weak_ptr`.  Using an object whose
  lifetime has ended is `Err.dead_object`.
-/

namespace POC

/-! ## Control block (sp.h 179-218) -/

/-- State of one `shared_ptr::control_block`: `owned_ptr`, `_deleter` (an
identifier of the stored deleter, `0` for `std::default_delete`), the two
counters, and the two ghost fields. -/
structure control_block where
  owned_ptr : Nat
  _deleter : Nat
  _weak_use_count : Int
  _use_count : Int
  deleter_calls : Nat
  deleted : Nat
deriving DecidableEq, Repr

/-- Constructors `control_block(U* p)` and `control_block(U* p, Deleter d)`:
both counters start at 1 (sp.h 185-187, 216). -/
def control_block.ctor (p d : Nat) : control_block :=
  { owned_ptr := p, _deleter := d, _weak_use_count := 1, _use_count := 1,
    deleter_calls := 0, deleted := 0 }

/-- Method `acquire()`: `_use_count++` (sp.h 191-193). -/
def control_block.acquire (cb : control_block) : control_block :=
  { cb with _use_count := cb._use_count + 1 }

/-- Method `acquire_weak()`: `_weak_use_count++` (sp.h 194-196). -/
def control_block.acquire_weak (cb : control_block) : control_block :=
  { cb with _weak_use_count := cb._weak_use_count + 1 }

/-- Method `release_weak()`: `if (--_weak_use_count == 0) delete this;`
(sp.h 203-205). -/
def control_block.release_weak (cb : control_block) : control_block :=
  let cb1 := { cb with _weak_use_count := cb._weak_use_count - 1 }
  if cb1._weak_use_count = 0 then { cb1 with deleted := cb1.deleted + 1 } else cb1

/-- Method `release()`:
`if (--_use_count == 0) { if (owned_ptr) _deleter(owned_ptr); release_weak(); }`
(sp.h 197-202). -/
def control_block.release (cb : control_block) : control_block :=
  let cb1 := { cb with _use_count := cb._use_count - 1 }
  if cb1._use_count = 0 then
    let cb2 := if cb1.owned_ptr ≠ 0 then
        { cb1 with deleter_calls := cb1.deleter_calls + 1 } else cb1
    cb2.release_weak
  else cb1

/-- Method `use_count()` (sp.h 207). -/
def control_block.use_count (cb : control_block) : Int := cb._use_count

/-- Method `weak_use_count()`:
`_weak_use_count - (_use_count > 0 ? 1 : 0)` (sp.h 208). -/
def control_block.weak_use_count (cb : control_block) : Int :=
  cb._weak_use_count - (if cb._use_count > 0 then 1 else 0)

/-- Method `unique()` (sp.h 209). -/
def control_block.unique (cb : control_block) : Bool := cb._use_count == 1

/-- Method `expired()` (sp.h 210). -/
def control_block.expired (cb : control_block) : Bool := cb._use_count == 0

/-! ## Handles and program state -/

/-- Data members of `shared_ptr` (sp.h 221-222). -/
structure shared_ptr where
  _pcb : Option Nat
  _stored_ptr : Nat
deriving DecidableEq, Repr

/-- Data members of `weak_ptr` (sp.h 316-317). -/
structure weak_ptr where
  _pcb : Option Nat
  _stored_ptr : Nat
deriving DecidableEq, Repr

/-- Ways an operation can fail to complete normally. -/
inductive Err where
  | bad_weak_ptr
  | null_deref
  | dead_object
deriving DecidableEq, Repr

/-- Program state: the heap of control blocks (`next_block` is the first
address never returned by `new`), and the handle objects created so far. -/
structure State where
  heap : Nat → control_block
  next_block : Nat
  sps : List (Option shared_ptr)
  wps : List (Option weak_ptr)

/-- State of a program that has not created any handle yet. -/
def State.init : State :=
  { heap := fun _ => control_block.ctor 0 0, next_block := 0, sps := [], wps := [] }

/-- Look up the live `shared_ptr` object `i`. -/
def State.sp (s : State) (i : Nat) : Except Err shared_ptr :=
  match s.sps[i]? with
  | some (some h) => .ok h
  | _ => .error .dead_object

/-- Look up the live `weak_ptr` object `j`. -/
def State.wp (s : State) (j : Nat) : Except Err weak_ptr :=
  match s.wps[j]? with
  | some (some w) => .ok w
  | _ => .error .dead_object

/-- A new `shared_ptr` object comes to life with members `h`. -/
def State.push_sp (s : State) (h : shared_ptr) : State :=
  { s with sps := s.sps ++ [some h] }

/-- A new `weak_ptr` object comes to life with members `w`. -/
def State.push_wp (s : State) (w : weak_ptr) : State :=
  { s with wps := s.wps ++ [some w] }

/-- Overwrite the members of `shared_ptr` object `i` (`none`: its lifetime ends). -/
def State.set_sp (s : State) (i : Nat) (h : Option shared_ptr) : State :=
  { s with sps := s.sps.set i h }

/-- Overwrite the members of `weak_ptr` object `j` (`none`: its lifetime ends). -/
def State.set_wp (s : State) (j : Nat) (w : Option weak_ptr) : State :=
  { s with wps := s.wps.set j w }

/-- Run the control-block method `f` on the block at address `b`. -/
def State.upd (s : State) (b : Nat) (f : control_block → control_block) : State :=
  { s with heap := Function.update s.heap b (f (s.heap b)) }

/-- Expression `_pcb->f()`: undefined behaviour when `_pcb` is null. -/
def State.call (s : State) (pcb : Option Nat) (f : control_block → control_block) :
    Except Err State :=
  match pcb with
  | some b => .ok (s.upd b f)
  | none => .error .null_deref

/-- Statement `if (_pcb) _pcb->f();`. -/
def State.call_if (s : State) (pcb : Option Nat) (f : control_block → control_block) :
    State :=
  match pcb with
  | some b => s.upd b f
  | none => s

/-- Expression `new control_block(p, d)`: the block is placed at `next_block`. -/
def State.alloc (s : State) (p d : Nat) : State :=
  { s with heap := Function.update s.heap s.next_block (control_block.ctor p d),
           next_block := s.next_block + 1 }

/-! ## `shared_ptr` operations (sp.h 31-223) -/

/-- Method `shared_ptr::use_count()`: `_pcb ? _pcb->use_count() : 0` (sp.h 158). -/
def shared_ptr.use_count (heap : Nat → control_block) (h : shared_ptr) : Int :=
  match h._pcb with
  | some b => (heap b).use_count
  | none => 0

/-- Method `shared_ptr::get()` (sp.h 147). -/
def shared_ptr.get (h : shared_ptr) : Nat := h._stored_ptr

/-- Conversion `operator bool()`: `_stored_ptr ? true : false` (sp.h 160). -/
def shared_ptr.to_bool (h : shared_ptr) : Bool := h._stored_ptr != 0

/-- Default constructor and the constructor from `nullptr_t` (sp.h 48-55). -/
def sp_default (s : State) : Except Err State :=
  .ok (s.push_sp { _pcb := none, _stored_ptr := 0 })

/-- Constructor `shared_ptr(U* p, D deleter)` (sp.h 64-67); `d` identifies the
deleter. -/
def sp_from_ptr_deleter (s : State) (p d : Nat) : Except Err State :=
  .ok ((s.alloc p d).push_sp { _pcb := some s.next_block, _stored_ptr := p })

/-- Constructor `shared_ptr(U* p)` (sp.h 58-61): the block stores
`std::default_delete`, identified by `0`. -/
def sp_from_ptr (s : State) (p : Nat) : Except Err State :=
  sp_from_ptr_deleter s p 0

/-- Constructor `shared_ptr(std::nullptr_t p, D deleter)` (sp.h 70-73). -/
def sp_from_null_deleter (s : State) (d : Nat) : Except Err State :=
  .ok ((s.alloc 0 d).push_sp { _pcb := some s.next_block, _stored_ptr := 0 })

/-- Function `make_shared` (sp.h 225-228): `shared_ptr<T>(new T{...})`, where
`p` is the address the `new` expression returned. -/
def make_shared (s : State) (p : Nat) : Except Err State :=
  sp_from_ptr s p

/-- Copy constructors (sp.h 78-87): members copied, then
`if (_pcb) _pcb->acquire();`.  The new object is slot `s.sps.length`. -/
def sp_copy (s : State) (i : Nat) : Except Err State := do
  let other ← s.sp i
  let s1 := s.call_if other._pcb control_block.acquire
  pure (s1.push_sp { _pcb := other._pcb, _stored_ptr := other._stored_ptr })

/-- Aliasing constructor `shared_ptr(const shared_ptr<U>& x, element_type* p)`
(sp.h 109-113). -/
def sp_alias (s : State) (i : Nat) (p : Nat) : Except Err State := do
  let x ← s.sp i
  let s1 := s.call_if x._pcb control_block.acquire
  pure (s1.push_sp { _pcb := x._pcb, _stored_ptr := p })

/-- Body of the move constructor as written (sp.h 100-105): the members are
initialised from `other`, then `other._stored_ptr = nullptr; _pcb = nullptr;`
(the second assignment is to the object under construction). -/
def sp_move (s : State) (i : Nat) : Except Err State := do
  let other ← s.sp i
  let s1 := s.set_sp i (some { _pcb := other._pcb, _stored_ptr := 0 })
  pure (s1.push_sp { _pcb := none, _stored_ptr := other._stored_ptr })

/-- Destructor (sp.h 116-125): `if (use_count() >= 1) _pcb->release();`, after
which the lifetime of the object ends. -/
def sp_dtor (s : State) (i : Nat) : Except Err State := do
  let h ← s.sp i
  if h.use_count s.heap ≥ 1 then
    let s1 ← s.call h._pcb control_block.release
    pure (s1.set_sp i none)
  else
    pure (s.set_sp i none)

/-- Method `swap` (sp.h 141-145): object `i` is `*this`, object `k` the argument. -/
def sp_swap (s : State) (i k : Nat) : Except Err State := do
  let a ← s.sp i
  let b ← s.sp k
  let s1 := s.set_sp i (some { _pcb := b._pcb, _stored_ptr := b._stored_ptr })
  pure (s1.set_sp k (some { _pcb := a._pcb, _stored_ptr := a._stored_ptr }))

/-- Copy assignment (sp.h 128-132): `shared_ptr tmp(other); swap(tmp);` and
`tmp` is destroyed on return.  Object `i` is `*this`, object `k` is `other`. -/
def sp_assign (s : State) (i k : Nat) : Except Err State := do
  let tmp := s.sps.length
  let s1 ← sp_copy s k
  let s2 ← sp_swap s1 i tmp
  sp_dtor s2 tmp

/-- Move assignment (sp.h 135-138): `shared_ptr{std::move(other)}.swap(*this);`.
The move-constructor template has a template parameter that no argument
determines, so the temporary is built by the copy constructor. -/
def sp_move_assign (s : State) (i k : Nat) : Except Err State := do
  let tmp := s.sps.length
  let s1 ← sp_copy s k
  let s2 ← sp_swap s1 tmp i
  sp_dtor s2 tmp

/-- Move assignment (sp.h 135-138) with the temporary built by the body of
the move constructor as written. -/
def sp_move_assign_tpl (s : State) (i k : Nat) : Except Err State := do
  let tmp := s.sps.length
  let s1 ← sp_move s k
  let s2 ← sp_swap s1 tmp i
  sp_dtor s2 tmp

/-- Method `reset()` (sp.h 149-151): `shared_ptr{}.swap(*this);`. -/
def sp_reset (s : State) (i : Nat) : Except Err State := do
  let tmp := s.sps.length
  let s1 ← sp_default s
  let s2 ← sp_swap s1 tmp i
  sp_dtor s2 tmp

/-- Method `reset(U* p)` (sp.h 153-156): `shared_ptr{p}.swap(*this);`. -/
def sp_reset_ptr (s : State) (i : Nat) (p : Nat) : Except Err State := do
  let tmp := s.sps.length
  let s1 ← sp_from_ptr s p
  let s2 ← sp_swap s1 tmp i
  sp_dtor s2 tmp

/-- Query `use_count()` on object `i`. -/
def sp_use_count (s : State) (i : Nat) : Except Err Int := do
  let h ← s.sp i
  pure (h.use_count s.heap)

/-- Query `get()` on object `i`. -/
def sp_get (s : State) (i : Nat) : Except Err Nat := do
  let h ← s.sp i
  pure h.get

/-! ## `weak_ptr` operations (sp.h 230-318) -/

/-- Method `weak_ptr::use_count()`: `_pcb ? _pcb->use_count() : 0` (sp.h 303-305). -/
def weak_ptr.use_count (heap : Nat → control_block) (w : weak_ptr) : Int :=
  match w._pcb with
  | some b => (heap b).use_count
  | none => 0

/-- Method `weak_ptr::expired()`: `_pcb ? true : _pcb->expired()` (sp.h 307-309).
With a control block the answer is `true`; without one the second branch
calls a method through the null pointer. -/
def weak_ptr.expired (heap : Nat → control_block) (w : weak_ptr) : Except Err Bool :=
  if w._pcb.isSome then .ok true
  else match w._pcb with
    | some b => .ok (heap b).expired
    | none => .error .null_deref

/-- Constructor `shared_ptr(const weak_ptr<U>& wp)` (sp.h 90-97):
`if (wp.expired()) throw std::bad_weak_ptr{}; else _pcb->acquire();`. -/
def sp_from_weak (s : State) (j : Nat) : Except Err State := do
  let wp ← s.wp j
  let e ← wp.expired s.heap
  if e then throw Err.bad_weak_ptr
  else do
    let s1 ← s.call wp._pcb control_block.acquire
    pure (s1.push_sp { _pcb := wp._pcb, _stored_ptr := wp._stored_ptr })

/-- Default constructor (sp.h 241). -/
def wp_default (s : State) : Except Err State :=
  .ok (s.push_wp { _pcb := none, _stored_ptr := 0 })

/-- Copy constructor (sp.h 243-245). -/
def wp_copy (s : State) (j : Nat) : Except Err State := do
  let r ← s.wp j
  let s1 := s.call_if r._pcb control_block.acquire_weak
  pure (s1.push_wp { _pcb := r._pcb, _stored_ptr := r._stored_ptr })

/-- Move constructor (sp.h 247-250). -/
def wp_move (s : State) (j : Nat) : Except Err State := do
  let r ← s.wp j
  let s1 := s.set_wp j (some { _pcb := none, _stored_ptr := 0 })
  pure (s1.push_wp { _pcb := r._pcb, _stored_ptr := r._stored_ptr })

/-- Constructor `weak_ptr(const shared_ptr<Y>& r)` (sp.h 252-255). -/
def wp_from_shared (s : State) (i : Nat) : Except Err State := do
  let r ← s.sp i
  let s1 := s.call_if r._pcb control_block.acquire_weak
  pure (s1.push_wp { _pcb := r._pcb, _stored_ptr := r._stored_ptr })

/-- Destructor (sp.h 257-259): `if (_pcb) _pcb->release_weak();`. -/
def wp_dtor (s : State) (j : Nat) : Except Err State := do
  let w ← s.wp j
  let s1 := s.call_if w._pcb control_block.release_weak
  pure (s1.set_wp j none)

/-- Method `swap` (sp.h 292-296). -/
def wp_swap (s : State) (j k : Nat) : Except Err State := do
  let a ← s.wp j
  let b ← s.wp k
  let s1 := s.set_wp j (some { _pcb := b._pcb, _stored_ptr := b._stored_ptr })
  pure (s1.set_wp k (some { _pcb := a._pcb, _stored_ptr := a._stored_ptr }))

/-- Copy assignment from a `weak_ptr` (sp.h 265-274): `weak_ptr{r}.swap(*this);`.
Object `j` is `*this`, object `k` is `r`. -/
def wp_assign (s : State) (j k : Nat) : Except Err State := do
  let tmp := s.wps.length
  let s1 ← wp_copy s k
  let s2 ← wp_swap s1 tmp j
  wp_dtor s2 tmp

/-- Assignment from a `shared_ptr` (sp.h 276-280). -/
def wp_assign_shared (s : State) (j i : Nat) : Except Err State := do
  let tmp := s.wps.length
  let s1 ← wp_from_shared s i
  let s2 ← wp_swap s1 tmp j
  wp_dtor s2 tmp

/-- Move assignment (sp.h 282-290): `weak_ptr{std::move(r)}.swap(*this);`. -/
def wp_move_assign (s : State) (j k : Nat) : Except Err State := do
  let tmp := s.wps.length
  let s1 ← wp_move s k
  let s2 ← wp_swap s1 tmp j
  wp_dtor s2 tmp

/-- Method `reset()` (sp.h 298-300): `weak_ptr{}.swap(*this);`. -/
def wp_reset (s : State) (j : Nat) : Except Err State := do
  let tmp := s.wps.length
  let s1 ← wp_default s
  let s2 ← wp_swap s1 tmp j
  wp_dtor s2 tmp

/-- Query `use_count()` on `weak_ptr` object `j`. -/
def wp_use_count (s : State) (j : Nat) : Except Err Int := do
  let w ← s.wp j
  pure (w.use_count s.heap)

/-- Query `expired()` on `weak_ptr` object `j`. -/
def wp_expired (s : State) (j : Nat) : Except Err Bool := do
  let w ← s.wp j
  w.expired s.heap

/-- Method `lock()` (sp.h 311-313):
`expired() ? shared_ptr<T>{} : shared_ptr<T>{*this}`.  The returned handle is
the new `shared_ptr` object `s.sps.length`. -/
def wp_lock (s : State) (j : Nat) : Except Err State := do
  let w ← s.wp j
  let e ← w.expired s.heap
  if e then sp_default s else sp_from_weak s j

/-! ## Programs: sequences of handle operations -/

/-- One handle operation of a client program. -/
inductive Op where
  | sp_default
  | sp_from_ptr (p : Nat)
  | sp_from_ptr_deleter (p d : Nat)
  | sp_from_null_deleter (d : Nat)
  | sp_copy (i : Nat)
  | sp_alias (i p : Nat)
  | sp_move (i : Nat)
  | sp_from_weak (j : Nat)
  | sp_dtor (i : Nat)
  | sp_swap (i k : Nat)
  | sp_assign (i k : Nat)
  | sp_move_assign (i k : Nat)
  | sp_move_assign_tpl (i k : Nat)
  | sp_reset (i : Nat)
  | sp_reset_ptr (i p : Nat)
  | wp_default
  | wp_copy (j : Nat)
  | wp_move (j : Nat)
  | wp_from_shared (i : Nat)
  | wp_dtor (j : Nat)
  | wp_swap (j k : Nat)
  | wp_assign (j k : Nat)
  | wp_assign_shared (j i : Nat)
  | wp_move_assign (j k : Nat)
  | wp_reset (j : Nat)
  | wp_lock (j : Nat)
deriving DecidableEq, Repr

/-- Effect of one operation on the program state. -/
def step (s : State) : Op → Except Err State
  | .sp_default => sp_default s
  | .sp_from_ptr p => sp_from_ptr s p
  | .sp_from_ptr_deleter p d => sp_from_ptr_deleter s p d
  | .sp_from_null_deleter d => sp_from_null_deleter s d
  | .sp_copy i => sp_copy s i
  | .sp_alias i p => sp_alias s i p
  | .sp_move i => sp_move s i
  | .sp_from_weak j => sp_from_weak s j
  | .sp_dtor i => sp_dtor s i
  | .sp_swap i k => sp_swap s i k
  | .sp_assign i k => sp_assign s i k
  | .sp_move_assign i k => sp_move_assign s i k
  | .sp_move_assign_tpl i k => sp_move_assign_tpl s i k
  | .sp_reset i => sp_reset s i
  | .sp_reset_ptr i p => sp_reset_ptr s i p
  | .wp_default => wp_default s
  | .wp_copy j => wp_copy s j
  | .wp_move j => wp_move s j
  | .wp_from_shared i => wp_from_shared s i
  | .wp_dtor j => wp_dtor s j
  | .wp_swap j k => wp_swap s j k
  | .wp_assign j k => wp_assign s j k
  | .wp_assign_shared j i => wp_assign_shared s j i
  | .wp_move_assign j k => wp_move_assign s j k
  | .wp_reset j => wp_reset s j
  | .wp_lock j => wp_lock s j

/-- States a client program can be in: the initial state, and every state an
operation that completes normally leads to.  An operation that throws leaves
the state as it was. -/
inductive Reachable : State → Prop where
  | init : Reachable State.init
  | step {s t : State} (op : Op) : Reachable s → step s op = .ok t → Reachable t

/-- Run one operation, staying in place when it does not complete normally. -/
def exec (s : State) (op : Op) : State :=
  match step s op with
  | .ok t => t
  | .error _ => s

/-- Run a program from the initial state. -/
def run (ops : List Op) : State := ops.foldl exec State.init

/-- Test whether handle slot `x` is a live `shared_ptr` whose `_pcb` is block `b`. -/
def sp_refs (b : Nat) : Option shared_ptr → Bool
  | some h => decide (h._pcb = some b)
  | none => false

/-- Test whether handle slot `x` is a live `weak_ptr` whose `_pcb` is block `b`. -/
def wp_refs (b : Nat) : Option weak_ptr → Bool
  | some w => decide (w._pcb = some b)
  | none => false

/-- Number of live `shared_ptr` objects whose `_pcb` is block `b`. -/
def State.sp_count (s : State) (b : Nat) : Nat := s.sps.countP (sp_refs b)

/-- Number of live `weak_ptr` objects whose `_pcb` is block `b`. -/
def State.wp_count (s : State) (b : Nat) : Nat := s.wps.countP (wp_refs b)

/-! ## The bookkeeping invariant -/

/-- Bookkeeping of one control block against the numbers `ns` and `nw` of live
`shared_ptr` and `weak_ptr` objects that refer to it: the strong count is
`ns`, the weak count is `nw` plus the implicit unit of the strong owners, the
block has been deleted (once) exactly when nothing refers to it, and the
deleter has run (once) exactly when the strong count is 0 and the owned
pointer is not null. -/
def block_ok (cb : control_block) (ns nw : Nat) : Prop :=
  cb._use_count = (ns : Int) ∧
  cb._weak_use_count = (nw : Int) + (if 0 < ns then 1 else 0) ∧
  cb.deleted = (if ns = 0 ∧ nw = 0 then 1 else 0) ∧
  cb.deleter_calls = (if ns = 0 ∧ cb.owned_ptr ≠ 0 then 1 else 0)

/-- Invariant of the program state: every allocated block is in order, and no
handle refers to an address that `new` has not returned yet. -/
def Inv (s : State) : Prop :=
  ∀ b, (b < s.next_block → block_ok (s.heap b) (s.sp_count b) (s.wp_count b)) ∧
       (s.next_block ≤ b → s.sp_count b = 0 ∧ s.wp_count b = 0)


/-- Relation between a state `s` and a later state `t`: no address is handed
out twice, and every block allocated in `s` keeps its owned pointer and its
deleter and, once its strong count is 0, keeps strong count 0. -/
def frame_ok (s t : State) : Prop :=
  s.next_block ≤ t.next_block ∧
  ∀ b, b < s.next_block →
    (t.heap b).owned_ptr = (s.heap b).owned_ptr ∧
    (t.heap b)._deleter = (s.heap b)._deleter ∧
    ((s.heap b)._use_count = 0 → (t.heap b)._use_count = 0)

/-! ## Empty handles and null addresses -/

/-- Every live `shared_ptr` that holds no control block observes the null
address. -/
def null_ok (s : State) : Prop :=
  ∀ x ∈ s.sps, ∀ h, x = some h → h._pcb = none → h._stored_ptr = 0

/-- Operations other than the move-constructor body (and the move assignment
built on it) and other than the aliasing constructor applied to a source
without control block together with a non-null address. -/
def Op.keeps_null (s : State) : Op → Bool
  | .sp_move _ => false
  | .sp_move_assign_tpl _ _ => false
  | .sp_alias i p =>
    match s.sp i with
    | .ok h => h._pcb.isSome || p == 0
    | .error _ => true
  | _ => true

/-- States reachable by the operations singled out by `Op.keeps_null`. -/
inductive ReachablePlain : State → Prop where
  | init : ReachablePlain State.init
  | step {s t : State} (op : Op) :
      ReachablePlain s → op.keeps_null s = true → step s op = .ok t → ReachablePlain t

/-! ## The simple variant `shared_ptr.h`

The earlier variant has one counter per control block, no `weak_ptr`, and the
handle deletes the control block itself.  `cnt` is a `long`, modelled as `Int`
like the counters of `sp.h`.  `object_deletes` and `deleted` are ghost fields:
the number of times `delete owned_ptr` and `delete pcb` ran. -/

namespace simple

/-- State of one `shared_ptr::control_block` (shared_ptr.h 73-93). -/
structure control_block where
  cnt : Int
  owned_ptr : Nat
  object_deletes : Nat
  deleted : Nat
deriving DecidableEq, Repr

/-- Constructor `control_block(T* p): cnt(0), owned_ptr(p)` (shared_ptr.h 75). -/
def control_block.ctor (p : Nat) : control_block :=
  { cnt := 0, owned_ptr := p, object_deletes := 0, deleted := 0 }

/-- Destructor (shared_ptr.h 77-82):
`if (0 == cnt && owned_ptr) { delete owned_ptr; owned_ptr = nullptr; }`. -/
def control_block.dtor (cb : control_block) : control_block :=
  if cb.cnt = 0 ∧ cb.owned_ptr ≠ 0 then
    { cb with owned_ptr := 0, object_deletes := cb.object_deletes + 1 }
  else cb

/-- Method `use_count()` (shared_ptr.h 84). -/
def control_block.use_count (cb : control_block) : Int := cb.cnt

/-- Method `acquire()`: `++cnt` (shared_ptr.h 86). -/
def control_block.acquire (cb : control_block) : control_block :=
  { cb with cnt := cb.cnt + 1 }

/-- Method `release()`: `--cnt` (shared_ptr.h 88). -/
def control_block.release (cb : control_block) : control_block :=
  { cb with cnt := cb.cnt - 1 }

/-- Expression `delete pcb`: the destructor runs, then the block is freed. -/
def control_block.delete_block (cb : control_block) : control_block :=
  { cb.dtor with deleted := cb.dtor.deleted + 1 }

/-- Data members of `shared_ptr` (shared_ptr.h 97-98). -/
structure shared_ptr where
  stored_ptr : Nat
  pcb : Option Nat
deriving DecidableEq, Repr

/-- Program state of the simple variant. -/
structure State where
  heap : Nat → control_block
  next_block : Nat
  sps : List (Option shared_ptr)

/-- State of a program that has not created any handle yet. -/
def State.init : State :=
  { heap := fun _ => control_block.ctor 0, next_block := 0, sps := [] }

/-- Look up the live `shared_ptr` object `i`. -/
def State.sp (s : State) (i : Nat) : Except Err shared_ptr :=
  match s.sps[i]? with
  | some (some h) => .ok h
  | _ => .error .dead_object

/-- A new `shared_ptr` object comes to life with members `h`. -/
def State.push_sp (s : State) (h : shared_ptr) : State :=
  { s with sps := s.sps ++ [some h] }

/-- Overwrite the members of object `i` (`none`: its lifetime ends). -/
def State.set_sp (s : State) (i : Nat) (h : Option shared_ptr) : State :=
  { s with sps := s.sps.set i h }

/-- Run the control-block method `f` on the block at address `b`. -/
def State.upd (s : State) (b : Nat) (f : control_block → control_block) : State :=
  { s with heap := Function.update s.heap b (f (s.heap b)) }

/-- Expression `new control_block(p)`: the block is placed at `next_block`. -/
def State.alloc (s : State) (p : Nat) : State :=
  { s with heap := Function.update s.heap s.next_block (control_block.ctor p),
           next_block := s.next_block + 1 }

/-- Method `use_count()`: `pcb ? pcb->use_count() : 0` (shared_ptr.h 66). -/
def shared_ptr.use_count (heap : Nat → control_block) (h : shared_ptr) : Int :=
  match h.pcb with
  | some b => (heap b).use_count
  | none => 0

/-- Default constructor and constructor from `nullptr_t` (shared_ptr.h 12-14). -/
def sp_default (s : State) : Except Err State :=
  .ok (s.push_sp { stored_ptr := 0, pcb := none })

/-- Constructor `shared_ptr(T* p)` (shared_ptr.h 16-18):
`pcb(new control_block(p))`, then `pcb->acquire();`. -/
def sp_from_ptr (s : State) (p : Nat) : Except Err State :=
  .ok (((s.alloc p).upd s.next_block control_block.acquire).push_sp
    { stored_ptr := p, pcb := some s.next_block })

/-- Copy constructor (shared_ptr.h 20-22): `if (pcb) pcb->acquire();`. -/
def sp_copy (s : State) (i : Nat) : Except Err State := do
  let other ← s.sp i
  let s1 := match other.pcb with
    | some b => s.upd b control_block.acquire
    | none => s
  pure (s1.push_sp { stored_ptr := other.stored_ptr, pcb := other.pcb })

/-- Aliasing constructor (shared_ptr.h 25-28): `pcb->acquire();` without a
test of `pcb`. -/
def sp_alias (s : State) (i : Nat) (p : Nat) : Except Err State := do
  let other ← s.sp i
  match other.pcb with
  | some b => pure ((s.upd b control_block.acquire).push_sp
      { stored_ptr := p, pcb := other.pcb })
  | none => throw Err.null_deref

/-- Common body of the destructor and of `reset()` (shared_ptr.h 31-38, 52-57):
`if (pcb) { pcb->release(); if (0 == pcb->use_count()) delete pcb; }`. -/
def drop (s : State) (pcb : Option Nat) : State :=
  match pcb with
  | some b =>
    let s1 := s.upd b control_block.release
    if (s1.heap b).use_count = 0 then s1.upd b control_block.delete_block else s1
  | none => s

/-- Destructor (shared_ptr.h 30-39). -/
def sp_dtor (s : State) (i : Nat) : Except Err State := do
  let h ← s.sp i
  pure ((drop s h.pcb).set_sp i none)

/-- Method `reset()` (shared_ptr.h 51-58): the members end as null. -/
def sp_reset (s : State) (i : Nat) : Except Err State := do
  let h ← s.sp i
  pure ((drop s h.pcb).set_sp i (some { stored_ptr := 0, pcb := none }))

/-- Copy assignment (shared_ptr.h 41-47): `reset();` first, then the members
of `other` are read and copied and `if (pcb) pcb->acquire();`.  Object `i` is
`*this`, object `k` is `other`. -/
def sp_assign (s : State) (i k : Nat) : Except Err State := do
  let s1 ← sp_reset s i
  let other ← s1.sp k
  let s2 := s1.set_sp i (some { stored_ptr := other.stored_ptr, pcb := other.pcb })
  match other.pcb with
  | some b => pure (s2.upd b control_block.acquire)
  | none => pure s2

/-- Method `reset(T* p)` (shared_ptr.h 60-64): `reset(); stored_ptr = p;
pcb = new control_block(p);`. -/
def sp_reset_ptr (s : State) (i : Nat) (p : Nat) : Except Err State := do
  let s1 ← sp_reset s i
  pure ((s1.alloc p).set_sp i (some { stored_ptr := p, pcb := some s1.next_block }))

/-- Query `use_count()` on object `i`. -/
def sp_use_count (s : State) (i : Nat) : Except Err Int := do
  let h ← s.sp i
  pure (h.use_count s.heap)

/-- Query `get()` on object `i` (shared_ptr.h 49). -/
def sp_get (s : State) (i : Nat) : Except Err Nat := do
  let h ← s.sp i
  pure h.stored_ptr

end simple

/-! ## Counting lemmas -/

theorem countP_set_add {α : Type} (p : α → Bool) :
    ∀ (l : List α) (i : Nat) (a x : α), l[i]? = some x →
      (l.set i a).countP p + (if p x then 1 else 0) = l.countP p + (if p a then 1 else 0) := by
  intro l
  induction l with
  | nil => intro i a x h; simp at h
  | cons y ys ih =>
    intro i a x h
    cases i with
    | zero =>
      simp at h
      subst h
      simp [List.countP_cons]
      omega
    | succ n =>
      simp at h
      have := ih n a x h
      simp [List.countP_cons]
      omega

theorem countP_pos_of_get {α : Type} (p : α → Bool) (l : List α) (i : Nat) (x : α)
    (h : l[i]? = some x) (hp : p x = true) : 0 < l.countP p := by
  rw [List.countP_pos_iff]
  exact ⟨x, List.getElem?_mem h, hp⟩

@[simp] theorem sp_refs_some (b : Nat) (h : shared_ptr) :
    sp_refs b (some h) = decide (h._pcb = some b) := rfl

@[simp] theorem sp_refs_none (b : Nat) : sp_refs b none = false := rfl

@[simp] theorem wp_refs_some (b : Nat) (w : weak_ptr) :
    wp_refs b (some w) = decide (w._pcb = some b) := rfl

@[simp] theorem wp_refs_none (b : Nat) : wp_refs b none = false := rfl

@[simp] theorem sp_count_push_sp (s : State) (h : shared_ptr) (b : Nat) :
    (s.push_sp h).sp_count b = s.sp_count b + (if h._pcb = some b then 1 else 0) := by
  simp [State.sp_count, State.push_sp, List.countP_append, List.countP_cons]

@[simp] theorem wp_count_push_sp (s : State) (h : shared_ptr) (b : Nat) :
    (s.push_sp h).wp_count b = s.wp_count b := rfl

@[simp] theorem wp_count_push_wp (s : State) (w : weak_ptr) (b : Nat) :
    (s.push_wp w).wp_count b = s.wp_count b + (if w._pcb = some b then 1 else 0) := by
  simp [State.wp_count, State.push_wp, List.countP_append, List.countP_cons]

@[simp] theorem sp_count_push_wp (s : State) (w : weak_ptr) (b : Nat) :
    (s.push_wp w).sp_count b = s.sp_count b := rfl

@[simp] theorem sp_count_upd (s : State) (c : Nat) (f : control_block → control_block)
    (b : Nat) : (s.upd c f).sp_count b = s.sp_count b := rfl

@[simp] theorem wp_count_upd (s : State) (c : Nat) (f : control_block → control_block)
    (b : Nat) : (s.upd c f).wp_count b = s.wp_count b := rfl

@[simp] theorem sp_count_alloc (s : State) (p d b : Nat) :
    (s.alloc p d).sp_count b = s.sp_count b := rfl

@[simp] theorem wp_count_alloc (s : State) (p d b : Nat) :
    (s.alloc p d).wp_count b = s.wp_count b := rfl

@[simp] theorem wp_count_set_sp (s : State) (i : Nat) (h : Option shared_ptr) (b : Nat) :
    (s.set_sp i h).wp_count b = s.wp_count b := rfl

@[simp] theorem sp_count_set_wp (s : State) (j : Nat) (w : Option weak_ptr) (b : Nat) :
    (s.set_wp j w).sp_count b = s.sp_count b := rfl

theorem sp_count_set_sp (s : State) (i : Nat) (a x : Option shared_ptr) (b : Nat)
    (h : s.sps[i]? = some x) :
    (s.set_sp i a).sp_count b + (if sp_refs b x then 1 else 0)
      = s.sp_count b + (if sp_refs b a then 1 else 0) :=
  countP_set_add (sp_refs b) s.sps i a x h

theorem wp_count_set_wp (s : State) (j : Nat) (a x : Option weak_ptr) (b : Nat)
    (h : s.wps[j]? = some x) :
    (s.set_wp j a).wp_count b + (if wp_refs b x then 1 else 0)
      = s.wp_count b + (if wp_refs b a then 1 else 0) :=
  countP_set_add (wp_refs b) s.wps j a x h

@[simp] theorem heap_push_sp (s : State) (h : shared_ptr) : (s.push_sp h).heap = s.heap := rfl
@[simp] theorem heap_push_wp (s : State) (w : weak_ptr) : (s.push_wp w).heap = s.heap := rfl
@[simp] theorem heap_set_sp (s : State) (i : Nat) (h : Option shared_ptr) :
    (s.set_sp i h).heap = s.heap := rfl
@[simp] theorem heap_set_wp (s : State) (j : Nat) (w : Option weak_ptr) :
    (s.set_wp j w).heap = s.heap := rfl
@[simp] theorem next_push_sp (s : State) (h : shared_ptr) :
    (s.push_sp h).next_block = s.next_block := rfl
@[simp] theorem next_push_wp (s : State) (w : weak_ptr) :
    (s.push_wp w).next_block = s.next_block := rfl
@[simp] theorem next_set_sp (s : State) (i : Nat) (h : Option shared_ptr) :
    (s.set_sp i h).next_block = s.next_block := rfl
@[simp] theorem next_set_wp (s : State) (j : Nat) (w : Option weak_ptr) :
    (s.set_wp j w).next_block = s.next_block := rfl
@[simp] theorem next_upd (s : State) (c : Nat) (f : control_block → control_block) :
    (s.upd c f).next_block = s.next_block := rfl
@[simp] theorem next_alloc (s : State) (p d : Nat) :
    (s.alloc p d).next_block = s.next_block + 1 := rfl
@[simp] theorem heap_upd_same (s : State) (c : Nat) (f : control_block → control_block) :
    (s.upd c f).heap c = f (s.heap c) := by
  simp [State.upd]
theorem heap_upd_other (s : State) (c b : Nat) (f : control_block → control_block)
    (h : b ≠ c) : (s.upd c f).heap b = s.heap b := by
  simp [State.upd, Function.update_noteq h]
@[simp] theorem heap_alloc_same (s : State) (p d : Nat) :
    (s.alloc p d).heap s.next_block = control_block.ctor p d := by
  simp [State.alloc]
theorem heap_alloc_other (s : State) (p d b : Nat) (h : b ≠ s.next_block) :
    (s.alloc p d).heap b = s.heap b := by
  simp [State.alloc, Function.update_noteq h]
@[simp] theorem sps_push_wp (s : State) (w : weak_ptr) : (s.push_wp w).sps = s.sps := rfl
@[simp] theorem wps_push_sp (s : State) (h : shared_ptr) : (s.push_sp h).wps = s.wps := rfl
@[simp] theorem sps_set_wp (s : State) (j : Nat) (w : Option weak_ptr) :
    (s.set_wp j w).sps = s.sps := rfl
@[simp] theorem wps_set_sp (s : State) (i : Nat) (h : Option shared_ptr) :
    (s.set_sp i h).wps = s.wps := rfl
@[simp] theorem sps_upd (s : State) (c : Nat) (f : control_block → control_block) :
    (s.upd c f).sps = s.sps := rfl
@[simp] theorem wps_upd (s : State) (c : Nat) (f : control_block → control_block) :
    (s.upd c f).wps = s.wps := rfl
@[simp] theorem sps_alloc (s : State) (p d : Nat) : (s.alloc p d).sps = s.sps := rfl
@[simp] theorem wps_alloc (s : State) (p d : Nat) : (s.alloc p d).wps = s.wps := rfl

/-! ## Control-block methods keep a block in order -/

theorem block_ok_ctor (p d : Nat) : block_ok (control_block.ctor p d) 1 0 := by
  simp [block_ok, control_block.ctor]

theorem block_ok_acquire {cb : control_block} {ns nw ns1 : Nat}
    (h : block_ok cb ns nw) (hpos : 0 < ns) (h1 : ns1 = ns + 1) :
    block_ok cb.acquire ns1 nw := by
  obtain ⟨hu, hw, hd, hc⟩ := h
  subst h1
  have hne : ns ≠ 0 := by omega
  simp [block_ok, control_block.acquire, hu, hw, hd, hc, hpos, hne] at *

theorem block_ok_release {cb : control_block} {ns nw ns1 : Nat}
    (h : block_ok cb ns nw) (h1 : ns = ns1 + 1) :
    block_ok cb.release ns1 nw := by
  obtain ⟨hu, hw, hd, hc⟩ := h
  subst h1
  simp only [block_ok, control_block.release, control_block.release_weak]
  by_cases h0 : ns1 = 0
  · subst h0
    by_cases hn : nw = 0
    · subst hn
      by_cases hp : cb.owned_ptr = 0 <;> simp_all
    · by_cases hp : cb.owned_ptr = 0 <;> simp_all
  · have : (0 : Nat) < ns1 := by omega
    have h2 : ¬ ((ns1 : Int) + 1 - 1 = 0) := by omega
    simp_all

theorem block_ok_acquire_weak {cb : control_block} {ns nw nw1 : Nat}
    (h : block_ok cb ns nw) (hpos : 0 < ns ∨ 0 < nw) (h1 : nw1 = nw + 1) :
    block_ok cb.acquire_weak ns nw1 := by
  obtain ⟨hu, hw, hd, hc⟩ := h
  subst h1
  simp only [block_ok, control_block.acquire_weak]
  refine ⟨hu, ?_, ?_, hc⟩
  · simp [hw]; omega
  · rw [hd]
    rcases hpos with hp | hp
    · have : ns ≠ 0 := by omega
      simp [this]
    · have : nw ≠ 0 := by omega
      simp [this]

theorem block_ok_release_weak {cb : control_block} {ns nw nw1 : Nat}
    (h : block_ok cb ns nw) (h1 : nw = nw1 + 1) :
    block_ok cb.release_weak ns nw1 := by
  obtain ⟨hu, hw, hd, hc⟩ := h
  subst h1
  simp only [block_ok, control_block.release_weak]
  by_cases h0 : ns = 0
  · subst h0
    by_cases hn : nw1 = 0
    · subst hn
      simp_all
    · have h2 : ¬ ((nw1 : Int) + 1 - 1 = 0) := by omega
      simp_all
  · have h2 : ¬ ((nw1 : Int) + 1 + 1 - 1 = 0) := by omega
    have : 0 < ns := by omega
    simp_all


/-! ## Primitive state changes keep the invariant -/

theorem Inv_init : Inv State.init := by
  intro b
  simp [State.init, State.sp_count, State.wp_count]

theorem Inv_of_frame {s t : State} (hs : Inv s) (hn : t.next_block = s.next_block)
    (h : ∀ b, (t.heap b = s.heap b ∧ t.sp_count b = s.sp_count b ∧
                t.wp_count b = s.wp_count b) ∨
              (b < s.next_block ∧ block_ok (t.heap b) (t.sp_count b) (t.wp_count b))) :
    Inv t := by
  intro b
  obtain ⟨h1, h2⟩ := hs b
  rcases h b with ⟨e1, e2, e3⟩ | ⟨hlt, hok⟩
  · rw [hn, e1, e2, e3]
    exact ⟨h1, h2⟩
  · rw [hn]
    exact ⟨fun _ => hok, fun hle => absurd hlt (by omega)⟩

theorem Inv_sp_lt {s : State} (hs : Inv s) {i b : Nat} {x : shared_ptr}
    (h : s.sps[i]? = some (some x)) (hx : x._pcb = some b) :
    b < s.next_block ∧ 0 < s.sp_count b := by
  have hpos : 0 < s.sp_count b :=
    countP_pos_of_get (sp_refs b) s.sps i (some x) h (by simp [hx])
  refine ⟨?_, hpos⟩
  by_contra hlt
  have := ((hs b).2 (by omega)).1
  omega

theorem Inv_wp_lt {s : State} (hs : Inv s) {j b : Nat} {x : weak_ptr}
    (h : s.wps[j]? = some (some x)) (hx : x._pcb = some b) :
    b < s.next_block ∧ 0 < s.wp_count b := by
  have hpos : 0 < s.wp_count b :=
    countP_pos_of_get (wp_refs b) s.wps j (some x) h (by simp [hx])
  refine ⟨?_, hpos⟩
  by_contra hlt
  have := ((hs b).2 (by omega)).2
  omega

theorem sp_lookup {s : State} {i : Nat} {h : shared_ptr} (e : s.sp i = .ok h) :
    s.sps[i]? = some (some h) := by
  unfold State.sp at e
  split at e
  · rename_i x hx
    cases e
    exact hx
  · cases e

theorem wp_lookup {s : State} {j : Nat} {w : weak_ptr} (e : s.wp j = .ok w) :
    s.wps[j]? = some (some w) := by
  unfold State.wp at e
  split at e
  · rename_i x hx
    cases e
    exact hx
  · cases e

theorem Inv_push_sp_null {s : State} (hs : Inv s) (p : Nat) :
    Inv (s.push_sp { _pcb := none, _stored_ptr := p }) := by
  refine Inv_of_frame hs ?_ ?_
  · rfl
  intro b
  left
  simp

theorem Inv_push_wp_null {s : State} (hs : Inv s) (p : Nat) :
    Inv (s.push_wp { _pcb := none, _stored_ptr := p }) := by
  refine Inv_of_frame hs ?_ ?_
  · rfl
  intro b
  left
  simp

theorem Inv_alloc_push {s : State} (hs : Inv s) (p d q : Nat) :
    Inv ((s.alloc p d).push_sp { _pcb := some s.next_block, _stored_ptr := q }) := by
  intro b
  obtain ⟨h1, h2⟩ := hs b
  by_cases hb : b = s.next_block
  · subst hb
    have h0 := h2 (le_refl _)
    simp [h0.1, h0.2, block_ok_ctor]
  · have hb2 : ¬ s.next_block = b := fun e => hb e.symm
    simp only [heap_push_sp, heap_alloc_other s p d b hb, sp_count_push_sp, sp_count_alloc,
      wp_count_push_sp, wp_count_alloc, next_push_sp, next_alloc]
    simp only [Option.some.injEq, hb2, if_false, Nat.add_zero]
    exact ⟨fun hlt => h1 (by omega), fun hle => h2 (by omega)⟩

theorem Inv_acquire_push {s : State} (hs : Inv s) {i : Nat} {x : shared_ptr}
    (h : s.sps[i]? = some (some x)) (q : Nat) :
    Inv ((s.call_if x._pcb control_block.acquire).push_sp
      { _pcb := x._pcb, _stored_ptr := q }) := by
  cases hx : x._pcb with
  | none => exact Inv_push_sp_null hs q
  | some c =>
    obtain ⟨hlt, hpos⟩ := Inv_sp_lt hs h hx
    refine Inv_of_frame hs ?_ ?_
    · rfl
    intro b
    by_cases hb : b = c
    · subst hb
      right
      refine ⟨hlt, ?_⟩
      simp only [State.call_if, heap_push_sp, heap_upd_same, sp_count_push_sp, sp_count_upd,
        wp_count_push_sp, wp_count_upd, if_true]
      exact block_ok_acquire ((hs b).1 hlt) hpos rfl
    · left
      have hb2 : ¬ c = b := fun e => hb e.symm
      simp [State.call_if, heap_upd_other _ _ _ _ hb, hb2]

theorem Inv_set_sp_same {s : State} (hs : Inv s) {i : Nat} {x : shared_ptr}
    (h : s.sps[i]? = some (some x)) (q : Nat) :
    Inv (s.set_sp i (some { _pcb := x._pcb, _stored_ptr := q })) := by
  refine Inv_of_frame hs ?_ ?_
  · rfl
  intro b
  left
  have := sp_count_set_sp s i (some { _pcb := x._pcb, _stored_ptr := q }) (some x) b h
  simp only [sp_refs_some] at this
  refine ⟨rfl, by omega, rfl⟩

theorem Inv_swap_sp {s : State} (hs : Inv s) {i k : Nat} {a c : shared_ptr}
    (ha : s.sps[i]? = some (some a)) (hc : s.sps[k]? = some (some c)) (p q : Nat) :
    Inv ((s.set_sp i (some { _pcb := c._pcb, _stored_ptr := p })).set_sp k
      (some { _pcb := a._pcb, _stored_ptr := q })) := by
  refine Inv_of_frame hs ?_ ?_
  · rfl
  intro b
  left
  refine ⟨rfl, ?_, rfl⟩
  have e1 := sp_count_set_sp s i (some { _pcb := c._pcb, _stored_ptr := p }) (some a) b ha
  by_cases hik : i = k
  · subst hik
    have hac : a = c := by
      rw [ha] at hc
      simpa using hc
    subst hac
    have hget : (s.set_sp i (some { _pcb := a._pcb, _stored_ptr := p })).sps[i]?
        = some (some { _pcb := a._pcb, _stored_ptr := p }) := by
      have hlt : i < s.sps.length := by
        by_contra hge
        rw [List.getElem?_eq_none (by omega)] at ha
        cases ha
      simp [State.set_sp, List.getElem?_set, hlt]
    have e2 := sp_count_set_sp _ i (some { _pcb := a._pcb, _stored_ptr := q }) _ b hget
    simp only [sp_refs_some] at e1 e2
    omega
  · have hget : (s.set_sp i (some { _pcb := c._pcb, _stored_ptr := p })).sps[k]?
        = some (some c) := by
      simp [State.set_sp, List.getElem?_set, hik, hc]
    have e2 := sp_count_set_sp _ k (some { _pcb := a._pcb, _stored_ptr := q }) _ b hget
    simp only [sp_refs_some] at e1 e2
    omega

theorem Inv_release_kill {s : State} (hs : Inv s) {i c : Nat} {x : shared_ptr}
    (h : s.sps[i]? = some (some x)) (hx : x._pcb = some c) :
    Inv ((s.upd c control_block.release).set_sp i none) := by
  obtain ⟨hlt, hpos⟩ := Inv_sp_lt hs h hx
  refine Inv_of_frame hs ?_ ?_
  · rfl
  intro b
  have e1 := sp_count_set_sp (s.upd c control_block.release) i none (some x) b h
  simp only [sp_refs_some, sp_refs_none, hx, sp_count_upd] at e1
  by_cases hb : b = c
  · subst hb
    right
    refine ⟨hlt, ?_⟩
    simp only [heap_set_sp, heap_upd_same, wp_count_set_sp, wp_count_upd]
    simp only [decide_True, if_true] at e1
    exact block_ok_release ((hs b).1 hlt) (by simpa using e1.symm)
  · left
    have hb2 : ¬ c = b := fun e => hb e.symm
    simp only [Option.some.injEq, hb2, decide_False] at e1
    simp at e1
    simp [heap_upd_other _ _ _ _ hb, e1]

theorem Inv_kill_null {s : State} (hs : Inv s) {i : Nat} {x : shared_ptr}
    (h : s.sps[i]? = some (some x)) (hx : x._pcb = none) :
    Inv (s.set_sp i none) := by
  refine Inv_of_frame hs ?_ ?_
  · rfl
  intro b
  left
  have e1 := sp_count_set_sp s i none (some x) b h
  simp [hx] at e1
  simp [e1]


theorem Inv_acquire_weak_push {s : State} (hs : Inv s) (pcb : Option Nat) (q : Nat)
    (h : ∀ c, pcb = some c → c < s.next_block ∧ (0 < s.sp_count c ∨ 0 < s.wp_count c)) :
    Inv ((s.call_if pcb control_block.acquire_weak).push_wp
      { _pcb := pcb, _stored_ptr := q }) := by
  cases hx : pcb with
  | none => exact Inv_push_wp_null hs q
  | some c =>
    obtain ⟨hlt, hpos⟩ := h c hx
    refine Inv_of_frame hs ?_ ?_
    · rfl
    intro b
    by_cases hb : b = c
    · subst hb
      right
      refine ⟨hlt, ?_⟩
      simp only [State.call_if, heap_push_wp, heap_upd_same, wp_count_push_wp, wp_count_upd,
        sp_count_push_wp, sp_count_upd, if_true]
      exact block_ok_acquire_weak ((hs b).1 hlt) hpos rfl
    · left
      have hb2 : ¬ c = b := fun e => hb e.symm
      simp [State.call_if, heap_upd_other _ _ _ _ hb, hb2]

theorem Inv_move_wp {s : State} (hs : Inv s) {j : Nat} {x : weak_ptr}
    (h : s.wps[j]? = some (some x)) (p q : Nat) :
    Inv ((s.set_wp j (some { _pcb := none, _stored_ptr := p })).push_wp
      { _pcb := x._pcb, _stored_ptr := q }) := by
  refine Inv_of_frame hs ?_ ?_
  · rfl
  intro b
  left
  have e1 := wp_count_set_wp s j (some { _pcb := none, _stored_ptr := p }) (some x) b h
  simp only [wp_refs_some] at e1
  refine ⟨rfl, rfl, ?_⟩
  simp only [wp_count_push_wp]
  simp at e1
  omega

theorem Inv_swap_wp {s : State} (hs : Inv s) {i k : Nat} {a c : weak_ptr}
    (ha : s.wps[i]? = some (some a)) (hc : s.wps[k]? = some (some c)) (p q : Nat) :
    Inv ((s.set_wp i (some { _pcb := c._pcb, _stored_ptr := p })).set_wp k
      (some { _pcb := a._pcb, _stored_ptr := q })) := by
  refine Inv_of_frame hs ?_ ?_
  · rfl
  intro b
  left
  refine ⟨rfl, rfl, ?_⟩
  have e1 := wp_count_set_wp s i (some { _pcb := c._pcb, _stored_ptr := p }) (some a) b ha
  by_cases hik : i = k
  · subst hik
    have hac : a = c := by
      rw [ha] at hc
      simpa using hc
    subst hac
    have hget : (s.set_wp i (some { _pcb := a._pcb, _stored_ptr := p })).wps[i]?
        = some (some { _pcb := a._pcb, _stored_ptr := p }) := by
      have hlt : i < s.wps.length := by
        by_contra hge
        rw [List.getElem?_eq_none (by omega)] at ha
        cases ha
      simp [State.set_wp, List.getElem?_set, hlt]
    have e2 := wp_count_set_wp _ i (some { _pcb := a._pcb, _stored_ptr := q }) _ b hget
    simp only [wp_refs_some] at e1 e2
    omega
  · have hget : (s.set_wp i (some { _pcb := c._pcb, _stored_ptr := p })).wps[k]?
        = some (some c) := by
      simp [State.set_wp, List.getElem?_set, hik, hc]
    have e2 := wp_count_set_wp _ k (some { _pcb := a._pcb, _stored_ptr := q }) _ b hget
    simp only [wp_refs_some] at e1 e2
    omega

theorem Inv_release_weak_kill {s : State} (hs : Inv s) {j : Nat} {x : weak_ptr}
    (h : s.wps[j]? = some (some x)) :
    Inv ((s.call_if x._pcb control_block.release_weak).set_wp j none) := by
  cases hx : x._pcb with
  | none =>
    refine Inv_of_frame hs ?_ ?_
    · rfl
    intro b
    left
    have e1 := wp_count_set_wp s j none (some x) b h
    simp [hx] at e1
    simp [State.call_if, e1]
  | some c =>
    obtain ⟨hlt, hpos⟩ := Inv_wp_lt hs h hx
    refine Inv_of_frame hs ?_ ?_
    · rfl
    intro b
    have e1 := wp_count_set_wp (s.upd c control_block.release_weak) j none (some x) b h
    simp only [wp_refs_some, wp_refs_none, hx, wp_count_upd] at e1
    by_cases hb : b = c
    · subst hb
      right
      refine ⟨hlt, ?_⟩
      simp only [State.call_if, heap_set_wp, heap_upd_same, sp_count_set_wp, sp_count_upd]
      simp only [decide_True, if_true] at e1
      exact block_ok_release_weak ((hs b).1 hlt) (by simpa using e1.symm)
    · left
      have hb2 : ¬ c = b := fun e => hb e.symm
      simp only [Option.some.injEq, hb2, decide_False] at e1
      simp at e1
      simp [State.call_if, heap_upd_other _ _ _ _ hb, e1]

/-! ## Every operation keeps the invariant -/

theorem bind_ok {α β : Type} {x : Except Err α} {f : α → Except Err β} {t : β}
    (h : (x >>= f) = .ok t) : ∃ a, x = .ok a ∧ f a = .ok t := by
  cases x with
  | error e => cases h
  | ok a => exact ⟨a, rfl, h⟩

theorem pure_ok {α : Type} {a t : α} (h : (pure a : Except Err α) = .ok t) : a = t := by
  cases h
  rfl

theorem Inv_sp_default {s t : State} (hs : Inv s) (e : sp_default s = .ok t) : Inv t := by
  cases e
  exact Inv_push_sp_null hs 0

theorem Inv_sp_from_ptr_deleter {s t : State} (hs : Inv s) {p d : Nat}
    (e : sp_from_ptr_deleter s p d = .ok t) : Inv t := by
  cases e
  exact Inv_alloc_push hs p d p

theorem Inv_sp_from_null_deleter {s t : State} (hs : Inv s) {d : Nat}
    (e : sp_from_null_deleter s d = .ok t) : Inv t := by
  cases e
  exact Inv_alloc_push hs 0 d 0

theorem Inv_sp_copy {s t : State} (hs : Inv s) {i : Nat} (e : sp_copy s i = .ok t) :
    Inv t := by
  obtain ⟨x, hx, e1⟩ := bind_ok e
  cases pure_ok e1
  exact Inv_acquire_push hs (sp_lookup hx) _

theorem Inv_sp_alias {s t : State} (hs : Inv s) {i p : Nat} (e : sp_alias s i p = .ok t) :
    Inv t := by
  obtain ⟨x, hx, e1⟩ := bind_ok e
  cases pure_ok e1
  exact Inv_acquire_push hs (sp_lookup hx) _

theorem Inv_sp_move {s t : State} (hs : Inv s) {i : Nat} (e : sp_move s i = .ok t) :
    Inv t := by
  obtain ⟨x, hx, e1⟩ := bind_ok e
  cases pure_ok e1
  exact Inv_push_sp_null (Inv_set_sp_same hs (sp_lookup hx) 0) _

theorem sp_from_weak_not_ok (s t : State) (j : Nat) : sp_from_weak s j ≠ .ok t := by
  intro e
  obtain ⟨w, _, e1⟩ := bind_ok e
  obtain ⟨x, hx, e2⟩ := bind_ok e1
  unfold weak_ptr.expired at hx
  cases hp : w._pcb with
  | none => simp [hp] at hx
  | some c =>
    simp [hp] at hx
    cases hx
    simp at e2

theorem Inv_sp_dtor {s t : State} (hs : Inv s) {i : Nat} (e : sp_dtor s i = .ok t) :
    Inv t := by
  obtain ⟨x, hx, e1⟩ := bind_ok e
  have hl := sp_lookup hx
  split at e1
  · obtain ⟨s1, h1, e2⟩ := bind_ok e1
    cases pure_ok e2
    cases hp : x._pcb with
    | none => simp [State.call, hp] at h1
    | some c =>
      simp only [State.call, hp] at h1
      cases h1
      exact Inv_release_kill hs hl hp
  · cases pure_ok e1
    rename_i hge
    cases hp : x._pcb with
    | none => exact Inv_kill_null hs hl hp
    | some c =>
      exfalso
      obtain ⟨hlt, hpos⟩ := Inv_sp_lt hs hl hp
      have := ((hs c).1 hlt).1
      simp only [shared_ptr.use_count, hp, control_block.use_count] at hge
      omega

theorem Inv_sp_swap {s t : State} (hs : Inv s) {i k : Nat} (e : sp_swap s i k = .ok t) :
    Inv t := by
  obtain ⟨a, ha, e1⟩ := bind_ok e
  obtain ⟨c, hc, e2⟩ := bind_ok e1
  cases pure_ok e2
  exact Inv_swap_sp hs (sp_lookup ha) (sp_lookup hc) _ _

theorem Inv_wp_default {s t : State} (hs : Inv s) (e : wp_default s = .ok t) : Inv t := by
  cases e
  exact Inv_push_wp_null hs 0

theorem Inv_wp_copy {s t : State} (hs : Inv s) {j : Nat} (e : wp_copy s j = .ok t) :
    Inv t := by
  obtain ⟨x, hx, e1⟩ := bind_ok e
  cases pure_ok e1
  refine Inv_acquire_weak_push hs _ _ ?_
  intro c hc
  obtain ⟨hlt, hpos⟩ := Inv_wp_lt hs (wp_lookup hx) hc
  exact ⟨hlt, Or.inr hpos⟩

theorem Inv_wp_from_shared {s t : State} (hs : Inv s) {i : Nat}
    (e : wp_from_shared s i = .ok t) : Inv t := by
  obtain ⟨x, hx, e1⟩ := bind_ok e
  cases pure_ok e1
  refine Inv_acquire_weak_push hs _ _ ?_
  intro c hc
  obtain ⟨hlt, hpos⟩ := Inv_sp_lt hs (sp_lookup hx) hc
  exact ⟨hlt, Or.inl hpos⟩

theorem Inv_wp_move {s t : State} (hs : Inv s) {j : Nat} (e : wp_move s j = .ok t) :
    Inv t := by
  obtain ⟨x, hx, e1⟩ := bind_ok e
  cases pure_ok e1
  exact Inv_move_wp hs (wp_lookup hx) _ _

theorem Inv_wp_dtor {s t : State} (hs : Inv s) {j : Nat} (e : wp_dtor s j = .ok t) :
    Inv t := by
  obtain ⟨x, hx, e1⟩ := bind_ok e
  cases pure_ok e1
  exact Inv_release_weak_kill hs (wp_lookup hx)

theorem Inv_wp_swap {s t : State} (hs : Inv s) {j k : Nat} (e : wp_swap s j k = .ok t) :
    Inv t := by
  obtain ⟨a, ha, e1⟩ := bind_ok e
  obtain ⟨c, hc, e2⟩ := bind_ok e1
  cases pure_ok e2
  exact Inv_swap_wp hs (wp_lookup ha) (wp_lookup hc) _ _

theorem Inv_step {s t : State} (hs : Inv s) (op : Op) (e : step s op = .ok t) : Inv t := by
  cases op with
  | sp_default => exact Inv_sp_default hs e
  | sp_from_ptr p => exact Inv_sp_from_ptr_deleter hs e
  | sp_from_ptr_deleter p d => exact Inv_sp_from_ptr_deleter hs e
  | sp_from_null_deleter d => exact Inv_sp_from_null_deleter hs e
  | sp_copy i => exact Inv_sp_copy hs e
  | sp_alias i p => exact Inv_sp_alias hs e
  | sp_move i => exact Inv_sp_move hs e
  | sp_from_weak j => exact absurd e (sp_from_weak_not_ok s t j)
  | sp_dtor i => exact Inv_sp_dtor hs e
  | sp_swap i k => exact Inv_sp_swap hs e
  | sp_assign i k =>
    obtain ⟨s1, h1, e1⟩ := bind_ok e
    obtain ⟨s2, h2, e2⟩ := bind_ok e1
    exact Inv_sp_dtor (Inv_sp_swap (Inv_sp_copy hs h1) h2) e2
  | sp_move_assign i k =>
    obtain ⟨s1, h1, e1⟩ := bind_ok e
    obtain ⟨s2, h2, e2⟩ := bind_ok e1
    exact Inv_sp_dtor (Inv_sp_swap (Inv_sp_copy hs h1) h2) e2
  | sp_move_assign_tpl i k =>
    obtain ⟨s1, h1, e1⟩ := bind_ok e
    obtain ⟨s2, h2, e2⟩ := bind_ok e1
    exact Inv_sp_dtor (Inv_sp_swap (Inv_sp_move hs h1) h2) e2
  | sp_reset i =>
    obtain ⟨s1, h1, e1⟩ := bind_ok e
    obtain ⟨s2, h2, e2⟩ := bind_ok e1
    exact Inv_sp_dtor (Inv_sp_swap (Inv_sp_default hs h1) h2) e2
  | sp_reset_ptr i p =>
    obtain ⟨s1, h1, e1⟩ := bind_ok e
    obtain ⟨s2, h2, e2⟩ := bind_ok e1
    exact Inv_sp_dtor (Inv_sp_swap (Inv_sp_from_ptr_deleter hs h1) h2) e2
  | wp_default => exact Inv_wp_default hs e
  | wp_copy j => exact Inv_wp_copy hs e
  | wp_move j => exact Inv_wp_move hs e
  | wp_from_shared i => exact Inv_wp_from_shared hs e
  | wp_dtor j => exact Inv_wp_dtor hs e
  | wp_swap j k => exact Inv_wp_swap hs e
  | wp_assign j k =>
    obtain ⟨s1, h1, e1⟩ := bind_ok e
    obtain ⟨s2, h2, e2⟩ := bind_ok e1
    exact Inv_wp_dtor (Inv_wp_swap (Inv_wp_copy hs h1) h2) e2
  | wp_assign_shared j i =>
    obtain ⟨s1, h1, e1⟩ := bind_ok e
    obtain ⟨s2, h2, e2⟩ := bind_ok e1
    exact Inv_wp_dtor (Inv_wp_swap (Inv_wp_from_shared hs h1) h2) e2
  | wp_move_assign j k =>
    obtain ⟨s1, h1, e1⟩ := bind_ok e
    obtain ⟨s2, h2, e2⟩ := bind_ok e1
    exact Inv_wp_dtor (Inv_wp_swap (Inv_wp_move hs h1) h2) e2
  | wp_reset j =>
    obtain ⟨s1, h1, e1⟩ := bind_ok e
    obtain ⟨s2, h2, e2⟩ := bind_ok e1
    exact Inv_wp_dtor (Inv_wp_swap (Inv_wp_default hs h1) h2) e2
  | wp_lock j =>
    obtain ⟨w, hw, e1⟩ := bind_ok e
    obtain ⟨x, hx, e2⟩ := bind_ok e1
    split at e2
    · exact Inv_sp_default hs e2
    · exact absurd e2 (sp_from_weak_not_ok s t j)

theorem Inv_of_reachable {s : State} (h : Reachable s) : Inv s := by
  induction h with
  | init => exact Inv_init
  | step op _ e ih => exact Inv_step ih op e

theorem reachable_exec {s : State} (h : Reachable s) (op : Op) : Reachable (exec s op) := by
  unfold exec
  split
  · rename_i t e
    exact Reachable.step op h e
  · exact h

theorem reachable_run (ops : List Op) : Reachable (run ops) := by
  unfold run
  suffices h : ∀ (l : List Op) (s : State), Reachable s → Reachable (l.foldl exec s) from
    h ops State.init Reachable.init
  intro l
  induction l with
  | nil => intro s hs; exact hs
  | cons op rest ih => intro s hs; exact ih (exec s op) (reachable_exec hs op)


/-! ## Strong count, object destruction, block deletion (C1–C3) -/

theorem deleter_calls_release_weak (cb : control_block) :
    cb.release_weak.deleter_calls = cb.deleter_calls := by
  simp only [control_block.release_weak]
  split <;> rfl

theorem use_count_release_weak (cb : control_block) :
    cb.release_weak._use_count = cb._use_count := by
  simp only [control_block.release_weak]
  split <;> rfl

/-- C1: in every state reachable by handle operations, the strong count
`_use_count` of every allocated control block equals the number of live
`shared_ptr` objects whose `_pcb` refers to that block, and so it is never
negative.  (The equation also holds for the record of a deleted block, to
which no live handle refers.) -/
theorem C1_use_count_eq_live_shared (s : State) (hs : Reachable s) (b : Nat)
    (hb : b < s.next_block) :
    (s.heap b)._use_count = (s.sp_count b : Int) ∧ 0 ≤ (s.heap b)._use_count := by
  have h := ((Inv_of_reachable hs b).1 hb).1
  exact ⟨h, by omega⟩

/-- Witness for C1: after `a(new T)`, `b(a)`, `c(a)`, `~b`, block 0 has strong
count 2 and two live handles refer to it. -/
theorem C1_use_count_eq_live_shared_witness :
    Reachable (run [.sp_from_ptr 5, .sp_copy 0, .sp_copy 0, .sp_dtor 1]) ∧
    (run [.sp_from_ptr 5, .sp_copy 0, .sp_copy 0, .sp_dtor 1]).sp_count 0 = 2 ∧
    ((run [.sp_from_ptr 5, .sp_copy 0, .sp_copy 0, .sp_dtor 1]).heap 0)._use_count
      = ((run [.sp_from_ptr 5, .sp_copy 0, .sp_copy 0, .sp_dtor 1]).sp_count 0 : Int) ∧
    0 ≤ ((run [.sp_from_ptr 5, .sp_copy 0, .sp_copy 0, .sp_dtor 1]).heap 0)._use_count :=
  ⟨reachable_run _, by decide,
    C1_use_count_eq_live_shared _ (reachable_run _) 0 (by decide)⟩

/-- C2: for a control block that manages a non-null pointer, in every
reachable state the deleter has run at most once, and it has run exactly when
the strong count is 0.  The deleter runs only inside `release()`, and there
only when `_use_count` is 1: that call sets the count to 0, runs the deleter
once and then performs `release_weak()`; with any other count `release()`
only decrements `_use_count`.  The other three methods never run the deleter. -/
theorem C2_object_destroyed_once (s : State) (hs : Reachable s) (b : Nat)
    (hb : b < s.next_block) (hp : (s.heap b).owned_ptr ≠ 0) :
    (s.heap b).deleter_calls ≤ 1 ∧
    ((s.heap b).deleter_calls = 1 ↔ (s.heap b)._use_count = 0) ∧
    (s.heap b).release =
      (if (s.heap b)._use_count = 1 then
        ({ s.heap b with _use_count := 0,
                         deleter_calls := (s.heap b).deleter_calls + 1 }).release_weak
       else { s.heap b with _use_count := (s.heap b)._use_count - 1 }) ∧
    (s.heap b).release.deleter_calls =
      (s.heap b).deleter_calls + (if (s.heap b)._use_count = 1 then 1 else 0) ∧
    (s.heap b).acquire.deleter_calls = (s.heap b).deleter_calls ∧
    (s.heap b).acquire_weak.deleter_calls = (s.heap b).deleter_calls ∧
    (s.heap b).release_weak.deleter_calls = (s.heap b).deleter_calls := by
  obtain ⟨hu, _, _, hc⟩ := (Inv_of_reachable hs b).1 hb
  refine ⟨?_, ?_, ?_, ?_, rfl, rfl, ?_⟩
  · rw [hc]; split <;> omega
  · rw [hc, hu]
    by_cases h0 : s.sp_count b = 0 <;> simp [h0, hp]
  · by_cases h1 : (s.heap b)._use_count = 1
    · simp [control_block.release, h1, hp]
    · have h2 : ¬ ((s.heap b)._use_count - 1 = 0) := by omega
      simp [control_block.release, h1, h2]
  · by_cases h1 : (s.heap b)._use_count = 1
    · simp [control_block.release, deleter_calls_release_weak, h1, hp]
    · have h2 : ¬ ((s.heap b)._use_count - 1 = 0) := by omega
      simp [control_block.release, h1, h2]
  · exact deleter_calls_release_weak _

/-- Witness for C2: with one owner of a non-null pointer, `release()` runs the
deleter (and the block goes away with it); with two owners it only
decrements; after both owners are gone the deleter has run once. -/
theorem C2_object_destroyed_once_witness :
    (Reachable (run [.sp_from_ptr 5]) ∧
      ((run [.sp_from_ptr 5]).heap 0)._use_count = 1 ∧
      ((run [.sp_from_ptr 5]).heap 0).deleter_calls = 0 ∧
      ((run [.sp_from_ptr 5]).heap 0).release.deleter_calls = 0 + 1) ∧
    (Reachable (run [.sp_from_ptr 5, .sp_copy 0]) ∧
      ((run [.sp_from_ptr 5, .sp_copy 0]).heap 0)._use_count = 2 ∧
      ((run [.sp_from_ptr 5, .sp_copy 0]).heap 0).release.deleter_calls = 0 + 0) ∧
    (Reachable (run [.sp_from_ptr 5, .sp_copy 0, .sp_dtor 0, .sp_dtor 1]) ∧
      ((run [.sp_from_ptr 5, .sp_copy 0, .sp_dtor 0, .sp_dtor 1]).heap 0)._use_count = 0 ∧
      ((run [.sp_from_ptr 5, .sp_copy 0, .sp_dtor 0, .sp_dtor 1]).heap 0).deleter_calls ≤ 1) :=
  ⟨⟨reachable_run _, by decide, by decide,
      (C2_object_destroyed_once (run [.sp_from_ptr 5]) (reachable_run _) 0
        (by decide) (by decide)).2.2.2.1⟩,
   ⟨reachable_run _, by decide,
      (C2_object_destroyed_once (run [.sp_from_ptr 5, .sp_copy 0]) (reachable_run _) 0
        (by decide) (by decide)).2.2.2.1⟩,
   ⟨reachable_run _, by decide,
      (C2_object_destroyed_once (run [.sp_from_ptr 5, .sp_copy 0, .sp_dtor 0, .sp_dtor 1])
        (reachable_run _) 0 (by decide) (by decide)).1⟩⟩

theorem deleted_release_weak (cb : control_block) :
    cb.release_weak.deleted = cb.deleted + (if cb._weak_use_count = 1 then 1 else 0) := by
  simp only [control_block.release_weak]
  by_cases h : cb._weak_use_count = 1
  · simp [h]
  · have h2 : ¬ (cb._weak_use_count - 1 = 0) := by omega
    simp [h, h2]

theorem deleted_release (cb : control_block) :
    cb.release.deleted =
      cb.deleted + (if cb._use_count = 1 ∧ cb._weak_use_count = 1 then 1 else 0) := by
  by_cases h : cb._use_count = 1
  · by_cases hp : cb.owned_ptr = 0 <;>
      simp [control_block.release, deleted_release_weak, h, hp]
  · have h2 : ¬ (cb._use_count - 1 = 0) := by omega
    simp [control_block.release, h, h2]

/-- C3: in every reachable state a control block has been deleted at most
once, and it has been deleted exactly when its weak count is 0; a deleted
block has strong count 0, its non-null owned pointer has been handed to the
deleter, and no live handle refers to it.  While the strong count is
positive the weak count is at least 1, and a block with a live `weak_ptr` is
not deleted.  `delete this` runs only in the `release_weak()` call that finds
`_weak_use_count` at 1 (directly, or at the end of the `release()` that finds
both counters at 1); `acquire()` and `acquire_weak()` never delete. -/
theorem C3_block_deleted_once (s : State) (hs : Reachable s) (b : Nat)
    (hb : b < s.next_block) :
    (s.heap b).deleted ≤ 1 ∧
    ((s.heap b).deleted = 1 ↔ (s.heap b)._weak_use_count = 0) ∧
    ((s.heap b).deleted = 1 →
      (s.heap b)._use_count = 0 ∧
      ((s.heap b).owned_ptr ≠ 0 → (s.heap b).deleter_calls = 1) ∧
      s.sp_count b = 0 ∧ s.wp_count b = 0) ∧
    (0 < (s.heap b)._use_count → 1 ≤ (s.heap b)._weak_use_count) ∧
    (0 < s.wp_count b → (s.heap b).deleted = 0 ∧ 1 ≤ (s.heap b)._weak_use_count) ∧
    (s.heap b).release_weak.deleted =
      (s.heap b).deleted + (if (s.heap b)._weak_use_count = 1 then 1 else 0) ∧
    (s.heap b).release.deleted =
      (s.heap b).deleted +
        (if (s.heap b)._use_count = 1 ∧ (s.heap b)._weak_use_count = 1 then 1 else 0) ∧
    (s.heap b).acquire.deleted = (s.heap b).deleted ∧
    (s.heap b).acquire_weak.deleted = (s.heap b).deleted := by
  obtain ⟨hu, hw, hd, hc⟩ := (Inv_of_reachable hs b).1 hb
  refine ⟨?_, ?_, ?_, ?_, ?_, deleted_release_weak _, deleted_release _, rfl, rfl⟩
  · rw [hd]; split <;> omega
  · rw [hd, hw]
    by_cases h0 : s.sp_count b = 0
    · by_cases h1 : s.wp_count b = 0
      · simp [h0, h1]
      · simp [h0, h1]
    · have : 0 < s.sp_count b := by omega
      simp [h0, this]
      omega
  · intro h1
    rw [hd] at h1
    by_cases h0 : s.sp_count b = 0 ∧ s.wp_count b = 0
    · obtain ⟨ha, hb2⟩ := h0
      refine ⟨by rw [hu, ha]; rfl, ?_, ha, hb2⟩
      intro hp
      rw [hc]
      simp [ha, hp]
    · simp [h0] at h1
  · intro hpos
    rw [hu] at hpos
    have : 0 < s.sp_count b := by omega
    rw [hw]
    simp [this]
  · intro hpos
    have hne : ¬ (s.sp_count b = 0 ∧ s.wp_count b = 0) := by omega
    rw [hd, hw]
    refine ⟨by simp [hne], ?_⟩
    split <;> omega

/-- Witness for C3: a block whose last `shared_ptr` is dropped while a
`weak_ptr` is alive is not deleted; it is deleted (once) when that `weak_ptr`
is dropped too. -/
theorem C3_block_deleted_once_witness :
    (Reachable (run [.sp_from_ptr 5, .wp_from_shared 0, .sp_dtor 0]) ∧
      ((run [.sp_from_ptr 5, .wp_from_shared 0, .sp_dtor 0]).heap 0)._use_count = 0 ∧
      0 < (run [.sp_from_ptr 5, .wp_from_shared 0, .sp_dtor 0]).wp_count 0 ∧
      ((run [.sp_from_ptr 5, .wp_from_shared 0, .sp_dtor 0]).heap 0).deleted = 0 ∧
      1 ≤ ((run [.sp_from_ptr 5, .wp_from_shared 0, .sp_dtor 0]).heap 0)._weak_use_count) ∧
    (Reachable (run [.sp_from_ptr 5, .wp_from_shared 0, .sp_dtor 0, .wp_dtor 0]) ∧
      ((run [.sp_from_ptr 5, .wp_from_shared 0, .sp_dtor 0, .wp_dtor 0]).heap 0).deleted = 1 ∧
      ((run [.sp_from_ptr 5, .wp_from_shared 0, .sp_dtor 0, .wp_dtor 0]).heap 0)._use_count = 0 ∧
      (run [.sp_from_ptr 5, .wp_from_shared 0, .sp_dtor 0, .wp_dtor 0]).sp_count 0 = 0) :=
  ⟨⟨reachable_run _, by decide, by decide,
      (C3_block_deleted_once (run [.sp_from_ptr 5, .wp_from_shared 0, .sp_dtor 0])
        (reachable_run _) 0 (by decide)).2.2.2.2.1 (by decide)⟩,
   ⟨reachable_run _, by decide,
      ((C3_block_deleted_once (run [.sp_from_ptr 5, .wp_from_shared 0, .sp_dtor 0, .wp_dtor 0])
        (reachable_run _) 0 (by decide)).2.2.1 (by decide)).1,
      ((C3_block_deleted_once (run [.sp_from_ptr 5, .wp_from_shared 0, .sp_dtor 0, .wp_dtor 0])
        (reachable_run _) 0 (by decide)).2.2.1 (by decide)).2.2.1⟩⟩


/-! ## Looking up handles after a state change -/

theorem sp_push_sp_new (s : State) (h : shared_ptr) :
    (s.push_sp h).sp s.sps.length = .ok h := by
  simp [State.sp, State.push_sp]

theorem sp_push_sp_old {s : State} {i : Nat} {x : shared_ptr} (h : shared_ptr)
    (e : s.sp i = .ok x) : (s.push_sp h).sp i = .ok x := by
  have hl := sp_lookup e
  have hlt : i < s.sps.length := by
    by_contra hge
    rw [List.getElem?_eq_none (by omega)] at hl
    cases hl
  simp [State.sp, State.push_sp, List.getElem?_append_left hlt, hl]

@[simp] theorem sp_upd (s : State) (c : Nat) (f : control_block → control_block) (i : Nat) :
    (s.upd c f).sp i = s.sp i := rfl

@[simp] theorem sp_call_if (s : State) (pcb : Option Nat) (f : control_block → control_block)
    (i : Nat) : (s.call_if pcb f).sp i = s.sp i := by
  cases pcb <;> rfl

@[simp] theorem sp_alloc (s : State) (p d i : Nat) : (s.alloc p d).sp i = s.sp i := rfl

@[simp] theorem sps_call_if (s : State) (pcb : Option Nat) (f : control_block → control_block) :
    (s.call_if pcb f).sps = s.sps := by
  cases pcb <;> rfl

theorem sp_set_sp_same {s : State} {i : Nat} {x : shared_ptr} (y : shared_ptr)
    (e : s.sp i = .ok x) : (s.set_sp i (some y)).sp i = .ok y := by
  have hl := sp_lookup e
  have hlt : i < s.sps.length := by
    by_contra hge
    rw [List.getElem?_eq_none (by omega)] at hl
    cases hl
  simp [State.sp, State.set_sp, List.getElem?_set, hlt]

theorem sp_set_sp_other (s : State) {i k : Nat} (y : Option shared_ptr) (hne : i ≠ k) :
    (s.set_sp i y).sp k = s.sp k := by
  simp [State.sp, State.set_sp, List.getElem?_set, hne]

theorem sp_lt_length {s : State} {i : Nat} {x : shared_ptr} (e : s.sp i = .ok x) :
    i < s.sps.length := by
  have hl := sp_lookup e
  by_contra hge
  rw [List.getElem?_eq_none (by omega)] at hl
  cases hl

theorem use_count_release (cb : control_block) :
    cb.release._use_count = cb._use_count - 1 := by
  by_cases h : cb._use_count - 1 = 0
  · by_cases hp : cb.owned_ptr = 0 <;>
      simp [control_block.release, use_count_release_weak, h, hp]
  · simp [control_block.release, h]

/-! ## Operations in closed form -/

theorem ok_bind {α β : Type} (a : α) (f : α → Except Err β) :
    (Except.ok a >>= f) = f a := rfl

theorem sp_copy_eq {s : State} {i : Nat} {h : shared_ptr} (e : s.sp i = .ok h) :
    sp_copy s i = .ok ((s.call_if h._pcb control_block.acquire).push_sp
      { _pcb := h._pcb, _stored_ptr := h._stored_ptr }) := by
  unfold sp_copy
  rw [e, ok_bind]
  rfl

theorem sp_alias_eq {s : State} {i : Nat} {h : shared_ptr} (p : Nat) (e : s.sp i = .ok h) :
    sp_alias s i p = .ok ((s.call_if h._pcb control_block.acquire).push_sp
      { _pcb := h._pcb, _stored_ptr := p }) := by
  unfold sp_alias
  rw [e, ok_bind]
  rfl

theorem sp_dtor_eq_release {s : State} {i b : Nat} {h : shared_ptr} (e : s.sp i = .ok h)
    (hb : h._pcb = some b) (hpos : 1 ≤ (s.heap b)._use_count) :
    sp_dtor s i = .ok ((s.upd b control_block.release).set_sp i none) := by
  unfold sp_dtor
  rw [e, ok_bind]
  have hge : h.use_count s.heap ≥ 1 := by
    simp only [shared_ptr.use_count, hb, control_block.use_count]
    exact hpos
  rw [if_pos hge, hb]
  rfl

theorem sp_dtor_eq_null {s : State} {i : Nat} {h : shared_ptr} (e : s.sp i = .ok h)
    (hb : h._pcb = none) :
    sp_dtor s i = .ok (s.set_sp i none) := by
  unfold sp_dtor
  rw [e, ok_bind]
  have hge : ¬ (h.use_count s.heap ≥ 1) := by
    simp [shared_ptr.use_count, hb]
  rw [if_neg hge]
  rfl

theorem sp_use_count_eq {s : State} {i : Nat} {h : shared_ptr} (e : s.sp i = .ok h) :
    sp_use_count s i = .ok (h.use_count s.heap) := by
  unfold sp_use_count
  rw [e, ok_bind]
  rfl


theorem sp_get_eq {s : State} {i : Nat} {h : shared_ptr} (e : s.sp i = .ok h) :
    sp_get s i = .ok h._stored_ptr := by
  unfold sp_get
  rw [e, ok_bind]
  rfl

/-! ## Construction from a pointer and copy construction (C4) -/

/-- C4 (counterexample): a default-constructed handle reports `use_count()`
0; after copy-constructing from it, the source and the copy both still
report 0, not 0 + 1. -/
theorem C4_counterexample_copy_of_empty :
    sp_use_count (run [.sp_default]) 0 = .ok 0 ∧
    (sp_copy (run [.sp_default]) 0 >>= fun t => sp_use_count t 0) = .ok 0 ∧
    (sp_copy (run [.sp_default]) 0 >>= fun t => sp_use_count t 1) = .ok 0 ∧
    (sp_copy (run [.sp_default]) 0 >>= fun t => sp_use_count t 0) ≠ .ok (0 + 1) ∧
    (sp_copy (run [.sp_default]) 0 >>= fun t => sp_use_count t 1) ≠ .ok (0 + 1) := by
  refine ⟨rfl, rfl, rfl, ?_, ?_⟩
  · intro h
    have e : (sp_copy (run [.sp_default]) 0 >>= fun t => sp_use_count t 0) = .ok 0 := rfl
    rw [e] at h
    exact absurd (Except.ok.inj h) (by decide)
  · intro h
    have e : (sp_copy (run [.sp_default]) 0 >>= fun t => sp_use_count t 1) = .ok 0 := rfl
    rw [e] at h
    exact absurd (Except.ok.inj h) (by decide)

/-- C4 (amended): in any state, the first construction of a program included,
constructing a `shared_ptr` from any pointer `p` yields a handle with
`get() = p` whose control block has strong count 1 and weak count 1, so
`use_count() = 1`; in a reachable state that block is fresh: no handle
referred to its address before.  Copy-constructing from a live handle yields
a handle with the same control block and observed address and leaves the
source as it was; when the source holds a control block whose `use_count()`
is `n`, source and copy both report `n + 1`, and when the source is empty both
report 0.  In a reachable state, destroying the copy makes the source report
its former `use_count()`. -/
theorem C4_construct_copy_destroy (s : State) (p : Nat) :
    (∃ t, sp_from_ptr s p = .ok t ∧
      t.sp s.sps.length = .ok { _pcb := some s.next_block, _stored_ptr := p } ∧
      sp_get t s.sps.length = .ok p ∧
      (t.heap s.next_block)._use_count = 1 ∧
      (t.heap s.next_block)._weak_use_count = 1 ∧
      sp_use_count t s.sps.length = .ok 1) ∧
    (Reachable s → s.sp_count s.next_block = 0 ∧ s.wp_count s.next_block = 0) ∧
    (∀ (i : Nat) (h : shared_ptr), s.sp i = .ok h →
      ∃ t, sp_copy s i = .ok t ∧
        t.sp i = .ok h ∧
        t.sp s.sps.length = .ok { _pcb := h._pcb, _stored_ptr := h._stored_ptr } ∧
        sp_use_count t i = .ok (if h._pcb.isSome then h.use_count s.heap + 1 else 0) ∧
        sp_use_count t s.sps.length
          = .ok (if h._pcb.isSome then h.use_count s.heap + 1 else 0) ∧
        (Reachable s →
          ∃ u, sp_dtor t s.sps.length = .ok u ∧
            u.sp i = .ok h ∧
            sp_use_count u i = .ok (h.use_count s.heap))) := by
  refine ⟨?_, ?_, ?_⟩
  · have hnew : ((s.alloc p 0).push_sp { _pcb := some s.next_block, _stored_ptr := p }).sp
        s.sps.length = .ok { _pcb := some s.next_block, _stored_ptr := p } :=
      sp_push_sp_new (s.alloc p 0) { _pcb := some s.next_block, _stored_ptr := p }
    refine ⟨_, rfl, hnew, ?_, ?_, ?_, ?_⟩
    · rw [sp_get_eq hnew]
    · simp [control_block.ctor]
    · simp [control_block.ctor]
    · rw [sp_use_count_eq hnew]
      simp [shared_ptr.use_count, control_block.use_count, control_block.ctor]
  · intro hs
    exact (Inv_of_reachable hs s.next_block).2 (le_refl _)
  · intro i h hi
    have hlen := sp_lt_length hi
    have hne : s.sps.length ≠ i := by omega
    refine ⟨_, sp_copy_eq hi, ?_⟩
    have hold : ((s.call_if h._pcb control_block.acquire).push_sp
        { _pcb := h._pcb, _stored_ptr := h._stored_ptr }).sp i = .ok h :=
      sp_push_sp_old _ (by simpa using hi)
    have hnew : ((s.call_if h._pcb control_block.acquire).push_sp
        { _pcb := h._pcb, _stored_ptr := h._stored_ptr }).sp s.sps.length
        = .ok { _pcb := h._pcb, _stored_ptr := h._stored_ptr } := by
      have := sp_push_sp_new (s.call_if h._pcb control_block.acquire)
        { _pcb := h._pcb, _stored_ptr := h._stored_ptr }
      simpa using this
    refine ⟨hold, hnew, ?_, ?_, ?_⟩
    · rw [sp_use_count_eq hold]
      cases hp : h._pcb with
      | none => simp [shared_ptr.use_count, hp]
      | some b =>
        simp [shared_ptr.use_count, hp, State.call_if, control_block.use_count,
          control_block.acquire]
    · rw [sp_use_count_eq hnew]
      cases hp : h._pcb with
      | none => simp [shared_ptr.use_count, hp]
      | some b =>
        simp [shared_ptr.use_count, hp, State.call_if, control_block.use_count,
          control_block.acquire]
    · intro hs
      have hinv := Inv_of_reachable hs
      cases hp : h._pcb with
      | none =>
        rw [hp] at hnew hold
        refine ⟨_, sp_dtor_eq_null hnew rfl, ?_, ?_⟩
        · rw [sp_set_sp_other _ _ hne]
          exact hold
        · have hu : (((s.call_if none control_block.acquire).push_sp
              { _pcb := none, _stored_ptr := h._stored_ptr }).set_sp s.sps.length none).sp i
              = .ok h := by
            rw [sp_set_sp_other _ _ hne]
            exact hold
          rw [sp_use_count_eq hu]
          simp [shared_ptr.use_count, hp]
      | some b =>
        rw [hp] at hnew hold
        obtain ⟨hlt, hpos⟩ := Inv_sp_lt hinv (sp_lookup hi) hp
        have hcnt := ((hinv b).1 hlt).1
        have hge : 1 ≤ (((s.call_if (some b) control_block.acquire).push_sp
            { _pcb := some b, _stored_ptr := h._stored_ptr }).heap b)._use_count := by
          simp [State.call_if, control_block.acquire]
          omega
        refine ⟨_, sp_dtor_eq_release hnew rfl hge, ?_, ?_⟩
        · rw [sp_set_sp_other _ _ hne]
          simpa using hold
        · have hu : ((((s.call_if (some b) control_block.acquire).push_sp
              { _pcb := some b, _stored_ptr := h._stored_ptr }).upd b
              control_block.release).set_sp s.sps.length none).sp i = .ok h := by
            rw [sp_set_sp_other _ _ hne]
            simpa using hold
          rw [sp_use_count_eq hu]
          simp [shared_ptr.use_count, hp, State.call_if, control_block.use_count,
            use_count_release, control_block.acquire]

/-- Witness for C4: in the initial state, where no handle exists, `a(new T)`
at address 5 gives `use_count() = 1`; then `b(a)` makes both report 2, and
`~b` brings `a` back to 1. -/
theorem C4_construct_copy_destroy_witness :
    State.init.sps = [] ∧
    (∃ t, sp_from_ptr State.init 5 = .ok t ∧
      t.sp 0 = .ok { _pcb := some 0, _stored_ptr := 5 } ∧
      sp_get t 0 = .ok 5 ∧ sp_use_count t 0 = .ok 1 ∧
      (t.heap 0)._use_count = 1 ∧ (t.heap 0)._weak_use_count = 1) ∧
    (Reachable State.init ∧
      State.init.sp_count 0 = 0 ∧ State.init.wp_count 0 = 0) ∧
    (Reachable (run [.sp_from_ptr 5]) ∧
      (run [.sp_from_ptr 5]).sp 0 = .ok { _pcb := some 0, _stored_ptr := 5 } ∧
      ∃ t, sp_copy (run [.sp_from_ptr 5]) 0 = .ok t ∧
        sp_use_count t 0 = .ok 2 ∧ sp_use_count t 1 = .ok 2 ∧
        ∃ u, sp_dtor t 1 = .ok u ∧ sp_use_count u 0 = .ok 1) := by
  obtain ⟨⟨t0, a1, a2, a3, a4, a5, a6⟩, a7, _⟩ := C4_construct_copy_destroy State.init 5
  obtain ⟨_, _, hcopy⟩ := C4_construct_copy_destroy (run [.sp_from_ptr 5]) 7
  obtain ⟨t, h1, _, _, h4, h5, hd⟩ := hcopy 0 { _pcb := some 0, _stored_ptr := 5 } rfl
  obtain ⟨u, h6, _, h8⟩ := hd (reachable_run _)
  exact ⟨rfl, ⟨t0, a1, a2, a3, a6, a4, a5⟩, ⟨Reachable.init, a7 Reachable.init⟩,
    reachable_run _, rfl, t, h1, h4, h5, u, h6, h8⟩

/-! ## `expired()`, `lock()` and construction from a `weak_ptr` (C5–C8) -/

/-- C5 (code at the failing input): a `weak_ptr` constructed from a
`shared_ptr` whose `use_count()` is 1 reports `expired() = true`, and
`expired()` on an empty `weak_ptr` calls a method through the null pointer.
In general `expired()` answers `true` whenever there is a control block,
whatever its strong count. -/
theorem C5_expired_true_on_live_block :
    sp_use_count (run [.sp_from_ptr 5, .wp_from_shared 0]) 0 = .ok 1 ∧
    wp_use_count (run [.sp_from_ptr 5, .wp_from_shared 0]) 0 = .ok 1 ∧
    wp_expired (run [.sp_from_ptr 5, .wp_from_shared 0]) 0 = .ok true ∧
    wp_expired (run [.wp_default]) 0 = .error .null_deref ∧
    (∀ (heap : Nat → control_block) (w : weak_ptr),
      w.expired heap = if w._pcb.isSome then .ok true else .error .null_deref) := by
  refine ⟨rfl, rfl, rfl, rfl, ?_⟩
  intro heap w
  unfold weak_ptr.expired
  cases w._pcb <;> rfl

/-- C6 (code at the failing input): a `weak_ptr` whose control block has
strong count 1.  `lock()` returns an empty, null handle and the strong count
of the block is still 1, not 2. -/
theorem C6_lock_empty_on_live_block :
    (run [.sp_from_ptr 5, .wp_from_shared 0]).wp 0
      = .ok { _pcb := some 0, _stored_ptr := 5 } ∧
    ((run [.sp_from_ptr 5, .wp_from_shared 0]).heap 0)._use_count = 1 ∧
    (wp_lock (run [.sp_from_ptr 5, .wp_from_shared 0]) 0 >>= fun t => t.sp 1)
      = .ok { _pcb := none, _stored_ptr := 0 } ∧
    (wp_lock (run [.sp_from_ptr 5, .wp_from_shared 0]) 0 >>= fun t =>
      pure (t.heap 0)._use_count) = .ok 1 :=
  ⟨rfl, rfl, rfl, rfl⟩

/-- C7 (code at the failing input): `lock()` on an empty `weak_ptr` calls a
method through the null pointer instead of returning an empty handle.  For a
`weak_ptr` whose control block has strong count 0, `lock()` does return an
empty, null handle and leaves both counters of the block as they were. -/
theorem C7_lock_on_empty_weak_derefs_null :
    (run [.wp_default]).wp 0 = .ok { _pcb := none, _stored_ptr := 0 } ∧
    wp_lock (run [.wp_default]) 0 = .error .null_deref ∧
    ((run [.sp_from_ptr 5, .wp_from_shared 0, .sp_dtor 0]).heap 0)._use_count = 0 ∧
    ((run [.sp_from_ptr 5, .wp_from_shared 0, .sp_dtor 0]).heap 0)._weak_use_count = 1 ∧
    (wp_lock (run [.sp_from_ptr 5, .wp_from_shared 0, .sp_dtor 0]) 0 >>= fun t => t.sp 1)
      = .ok { _pcb := none, _stored_ptr := 0 } ∧
    (wp_lock (run [.sp_from_ptr 5, .wp_from_shared 0, .sp_dtor 0]) 0 >>= fun t =>
      pure ((t.heap 0)._use_count, (t.heap 0)._weak_use_count)) = .ok (0, 1) :=
  ⟨rfl, rfl, rfl, rfl, rfl, rfl⟩

/-- C8 (code at the failing input): constructing a `shared_ptr` from a
`weak_ptr` whose control block has strong count 1 throws `bad_weak_ptr`, and
constructing one from an empty `weak_ptr` calls a method through the null
pointer instead of throwing. -/
theorem C8_from_weak_throws_on_live_block :
    (run [.sp_from_ptr 5, .wp_from_shared 0]).wp 0
      = .ok { _pcb := some 0, _stored_ptr := 5 } ∧
    ((run [.sp_from_ptr 5, .wp_from_shared 0]).heap 0)._use_count = 1 ∧
    sp_from_weak (run [.sp_from_ptr 5, .wp_from_shared 0]) 0 = .error .bad_weak_ptr ∧
    sp_from_weak (run [.wp_default]) 0 = .error .null_deref :=
  ⟨rfl, rfl, rfl, rfl⟩

/-! ## Aliasing and move construction (C9, C10) -/

theorem deleter_calls_zero_of_live {v : State} (hv : Reachable v) {k b : Nat}
    {x : shared_ptr} (h : v.sp k = .ok x) (hx : x._pcb = some b) :
    (v.heap b).deleter_calls = 0 := by
  have hinv := Inv_of_reachable hv
  obtain ⟨hlt, hpos⟩ := Inv_sp_lt hinv (sp_lookup h) hx
  have hc := ((hinv b).1 hlt).2.2.2
  have hne : ¬ (v.sp_count b = 0) := by omega
  rw [hc]
  simp [hne]

/-- C9: for a live handle `A` that holds control block `b` with strong count
`n`, and any address `p`, the aliasing constructor `B = shared_ptr(A, p)`
yields a handle `B` with `get() = p` on the same block `b`, leaves `A` (and so
`A.get()`) as it was, and makes both report `use_count() = n + 1`.
Destroying `A` makes `B` report `n`, destroying `B` makes `A` report `n`, and
in none of these states has the deleter of `b` run: in every reachable state
in which some live handle holds `b`, the deleter of `b` has not run. -/
theorem C9_aliasing_shares_block (s : State) (hs : Reachable s) (i b p : Nat)
    (A : shared_ptr) (n : Int) (hi : s.sp i = .ok A) (hb : A._pcb = some b)
    (hn : (s.heap b)._use_count = n) :
    (∃ t, sp_alias s i p = .ok t ∧
      t.sp s.sps.length = .ok { _pcb := some b, _stored_ptr := p } ∧
      sp_get t s.sps.length = .ok p ∧
      t.sp i = .ok A ∧
      sp_get t i = sp_get s i ∧
      sp_use_count t i = .ok (n + 1) ∧
      sp_use_count t s.sps.length = .ok (n + 1) ∧
      (t.heap b).deleter_calls = 0 ∧
      (∃ u, sp_dtor t i = .ok u ∧ sp_use_count u s.sps.length = .ok n ∧
        (u.heap b).deleter_calls = 0) ∧
      (∃ u, sp_dtor t s.sps.length = .ok u ∧ sp_use_count u i = .ok n ∧
        (u.heap b).deleter_calls = 0)) ∧
    (∀ v k x, Reachable v → v.sp k = .ok x → x._pcb = some b →
      (v.heap b).deleter_calls = 0) := by
  have hinv := Inv_of_reachable hs
  have hlen := sp_lt_length hi
  have hne : s.sps.length ≠ i := by omega
  obtain ⟨hlt, hpos⟩ := Inv_sp_lt hinv (sp_lookup hi) hb
  have hcnt := ((hinv b).1 hlt).1
  refine ⟨?_, fun v k x hv hk hx => deleter_calls_zero_of_live hv hk hx⟩
  have he : sp_alias s i p = .ok ((s.upd b control_block.acquire).push_sp
      { _pcb := some b, _stored_ptr := p }) := by
    rw [sp_alias_eq p hi, hb]
    rfl
  have ht : Reachable ((s.upd b control_block.acquire).push_sp
      { _pcb := some b, _stored_ptr := p }) := Reachable.step (.sp_alias i p) hs he
  have hold : ((s.upd b control_block.acquire).push_sp
      { _pcb := some b, _stored_ptr := p }).sp i = .ok A :=
    sp_push_sp_old _ (by simpa using hi)
  have hnew : ((s.upd b control_block.acquire).push_sp
      { _pcb := some b, _stored_ptr := p }).sp s.sps.length
      = .ok { _pcb := some b, _stored_ptr := p } :=
    sp_push_sp_new (s.upd b control_block.acquire) { _pcb := some b, _stored_ptr := p }
  have hge : 1 ≤ (((s.upd b control_block.acquire).push_sp
      { _pcb := some b, _stored_ptr := p }).heap b)._use_count := by
    simp [control_block.acquire]
    omega
  have hdA := sp_dtor_eq_release hold hb hge
  have hdB := sp_dtor_eq_release hnew rfl hge
  have huA : ((((s.upd b control_block.acquire).push_sp
      { _pcb := some b, _stored_ptr := p }).upd b control_block.release).set_sp i none).sp
      s.sps.length = .ok { _pcb := some b, _stored_ptr := p } := by
    rw [sp_set_sp_other _ _ (Ne.symm hne)]
    simpa using hnew
  have huB : ((((s.upd b control_block.acquire).push_sp
      { _pcb := some b, _stored_ptr := p }).upd b control_block.release).set_sp
      s.sps.length none).sp i = .ok A := by
    rw [sp_set_sp_other _ _ hne]
    simpa using hold
  refine ⟨_, he, hnew, ?_, hold, ?_, ?_, ?_, deleter_calls_zero_of_live ht hold hb,
    ⟨_, hdA, ?_, ?_⟩, ⟨_, hdB, ?_, ?_⟩⟩
  · rw [sp_get_eq hnew]
  · rw [sp_get_eq hold, sp_get_eq hi]
  · rw [sp_use_count_eq hold]
    simp [shared_ptr.use_count, hb, control_block.use_count, control_block.acquire, hn]
  · rw [sp_use_count_eq hnew]
    simp [shared_ptr.use_count, control_block.use_count, control_block.acquire, hn]
  · rw [sp_use_count_eq huA]
    simp [shared_ptr.use_count, control_block.use_count, use_count_release,
      control_block.acquire, hn]
  · exact deleter_calls_zero_of_live (Reachable.step (.sp_dtor i) ht hdA) huA rfl
  · rw [sp_use_count_eq huB]
    simp [shared_ptr.use_count, hb, control_block.use_count, use_count_release,
      control_block.acquire, hn]
  · exact deleter_calls_zero_of_live (Reachable.step (.sp_dtor _) ht hdB) huB hb

/-- Witness for C9: `A(new T)` at address 5 with strong count 1, then
`B = shared_ptr(A, 9)`. -/
theorem C9_aliasing_shares_block_witness :
    Reachable (run [.sp_from_ptr 5]) ∧
    (run [.sp_from_ptr 5]).sp 0 = .ok { _pcb := some 0, _stored_ptr := 5 } ∧
    ((run [.sp_from_ptr 5]).heap 0)._use_count = 1 ∧
    (∃ t, sp_alias (run [.sp_from_ptr 5]) 0 9 = .ok t ∧
      sp_get t 1 = .ok 9 ∧ sp_get t 0 = .ok 5 ∧
      sp_use_count t 0 = .ok 2 ∧ sp_use_count t 1 = .ok 2 ∧
      (∃ u, sp_dtor t 0 = .ok u ∧ sp_use_count u 1 = .ok 1 ∧
        (u.heap 0).deleter_calls = 0) ∧
      (∃ u, sp_dtor t 1 = .ok u ∧ sp_use_count u 0 = .ok 1 ∧
        (u.heap 0).deleter_calls = 0)) := by
  refine ⟨reachable_run _, rfl, rfl, ?_⟩
  obtain ⟨⟨t, h1, _, h3, _, h5, h6, h7, _, h9, h10⟩, _⟩ :=
    C9_aliasing_shares_block (run [.sp_from_ptr 5]) (reachable_run _) 0 0 9
      { _pcb := some 0, _stored_ptr := 5 } 1 rfl rfl rfl
  exact ⟨t, h1, h3, h5, h6, h7, h9, h10⟩

/-- C10 (code at the failing input): `a(new T)` at address 5, then the body of
the move constructor run with `a` as source.  The new handle holds no control
block (its own `_pcb` was set to null) and observes address 5; the source
keeps block 0 and observes null; the strong count stays 1.  When the
temporary is built by the copy constructor instead, the source is unchanged
and the strong count becomes 2. -/
theorem C10_move_leaves_block_in_source :
    (run [.sp_from_ptr 5]).sp 0 = .ok { _pcb := some 0, _stored_ptr := 5 } ∧
    (sp_move (run [.sp_from_ptr 5]) 0 >>= fun t => t.sp 1)
      = .ok { _pcb := none, _stored_ptr := 5 } ∧
    (sp_move (run [.sp_from_ptr 5]) 0 >>= fun t => t.sp 0)
      = .ok { _pcb := some 0, _stored_ptr := 0 } ∧
    (sp_move (run [.sp_from_ptr 5]) 0 >>= fun t => sp_use_count t 1) = .ok 0 ∧
    (sp_move (run [.sp_from_ptr 5]) 0 >>= fun t => sp_use_count t 0) = .ok 1 ∧
    (sp_copy (run [.sp_from_ptr 5]) 0 >>= fun t => t.sp 0)
      = .ok { _pcb := some 0, _stored_ptr := 5 } ∧
    (sp_copy (run [.sp_from_ptr 5]) 0 >>= fun t => sp_use_count t 0) = .ok 2 :=
  ⟨rfl, rfl, rfl, rfl, rfl, rfl, rfl⟩

/-! ## Assignment and reset (C11, C12) -/

theorem heap_upd_apply (s : State) (c b : Nat) (f : control_block → control_block) :
    (s.upd c f).heap b = if b = c then f (s.heap c) else s.heap b := by
  by_cases h : b = c
  · subst h
    simp
  · simp [h, heap_upd_other _ _ _ _ h]

theorem heap_call_if_apply (s : State) (pcb : Option Nat) (b : Nat)
    (f : control_block → control_block) :
    (s.call_if pcb f).heap b = if pcb = some b then f (s.heap b) else s.heap b := by
  cases pcb with
  | none => simp [State.call_if]
  | some c =>
    simp only [State.call_if, heap_upd_apply, Option.some.injEq]
    by_cases h : b = c
    · subst h
      simp
    · have h2 : ¬ c = b := fun e => h e.symm
      simp [h, h2]

theorem deleter_calls_release (cb : control_block) :
    cb.release.deleter_calls =
      cb.deleter_calls + (if cb._use_count = 1 ∧ cb.owned_ptr ≠ 0 then 1 else 0) := by
  by_cases h : cb._use_count = 1
  · by_cases hp : cb.owned_ptr = 0 <;>
      simp [control_block.release, deleter_calls_release_weak, h, hp]
  · have h2 : ¬ (cb._use_count - 1 = 0) := by omega
    simp [control_block.release, h, h2]

theorem sp_swap_eq {s : State} {i k : Nat} {a c : shared_ptr} (ha : s.sp i = .ok a)
    (hc : s.sp k = .ok c) :
    sp_swap s i k = .ok ((s.set_sp i (some { _pcb := c._pcb, _stored_ptr := c._stored_ptr })).set_sp
      k (some { _pcb := a._pcb, _stored_ptr := a._stored_ptr })) := by
  unfold sp_swap
  rw [ha, ok_bind, hc, ok_bind]
  rfl

theorem sp_dtor_closed {s : State} {i : Nat} {h : shared_ptr} (hs : Inv s)
    (e : s.sp i = .ok h) :
    sp_dtor s i = .ok ((s.call_if h._pcb control_block.release).set_sp i none) := by
  cases hp : h._pcb with
  | none => exact sp_dtor_eq_null e hp
  | some b =>
    obtain ⟨hlt, hpos⟩ := Inv_sp_lt hs (sp_lookup e) hp
    have hcnt := ((hs b).1 hlt).1
    exact sp_dtor_eq_release e hp (by omega)

theorem sp_eta (h : shared_ptr) : ({ _pcb := h._pcb, _stored_ptr := h._stored_ptr } : shared_ptr) = h := by
  cases h
  rfl

theorem sp_assign_closed {s : State} (hs : Inv s) {i k : Nat} {a b : shared_ptr}
    (hi : s.sp i = .ok a) (hk : s.sp k = .ok b) :
    sp_assign s i k = .ok
      ((((((s.call_if b._pcb control_block.acquire).push_sp b).set_sp i (some b)).set_sp
        s.sps.length (some a)).call_if a._pcb control_block.release).set_sp
        s.sps.length none) := by
  have h1 := sp_copy_eq hk
  rw [sp_eta] at h1
  have hs1 := Inv_sp_copy hs h1
  have hold : ((s.call_if b._pcb control_block.acquire).push_sp b).sp i = .ok a :=
    sp_push_sp_old _ (by simpa using hi)
  have hnew : ((s.call_if b._pcb control_block.acquire).push_sp b).sp s.sps.length = .ok b := by
    have := sp_push_sp_new (s.call_if b._pcb control_block.acquire) b
    simpa using this
  have h2 := sp_swap_eq hold hnew
  rw [sp_eta, sp_eta] at h2
  have hs2 := Inv_sp_swap hs1 h2
  have htmp : ((((s.call_if b._pcb control_block.acquire).push_sp b).set_sp i (some b)).set_sp
      s.sps.length (some a)).sp s.sps.length = .ok a := by
    have hne : i ≠ s.sps.length := by
      have := sp_lt_length hi
      omega
    refine sp_set_sp_same (x := b) a ?_
    rw [sp_set_sp_other _ _ hne]
    exact hnew
  have h3 := sp_dtor_closed hs2 htmp
  unfold sp_assign
  rw [h1, ok_bind, h2, ok_bind, h3]

/-- C11: for live handles `a` (object `i`) and `b` (object `k`) in a reachable
state, the copy assignment `a = b` completes; afterwards `a` holds the control
block and observed address of `b` and `b` is as before.  The strong count of
every block `c` changes by `+1` if `b` holds `c` and by `-1` if `a` held `c`:
the block of `b` gains one unit, the former block of `a` loses one, and when
both are the same block (in particular when `a` and `b` are the same handle)
the count is as before.  The deleter of `c` runs during the assignment
exactly when `a` held `c`, `b` does not hold `c`, and the strong count of `c`
was 1 (with a non-null owned pointer), so never when the two share a block. -/
theorem C11_copy_assignment (s : State) (hs : Reachable s) (i k : Nat) (a b : shared_ptr)
    (hi : s.sp i = .ok a) (hk : s.sp k = .ok b) :
    ∃ t, sp_assign s i k = .ok t ∧
      t.sp i = .ok { _pcb := b._pcb, _stored_ptr := b._stored_ptr } ∧
      t.sp k = .ok b ∧
      (∀ c, (t.heap c)._use_count =
        (s.heap c)._use_count + (if b._pcb = some c then 1 else 0)
          - (if a._pcb = some c then 1 else 0)) ∧
      (∀ c, (t.heap c).deleter_calls =
        (s.heap c).deleter_calls +
          (if a._pcb = some c ∧ b._pcb ≠ some c ∧ (s.heap c)._use_count = 1 ∧
              (s.heap c).owned_ptr ≠ 0 then 1 else 0)) := by
  have hinv := Inv_of_reachable hs
  have hlen := sp_lt_length hi
  have hlenk := sp_lt_length hk
  have hne : s.sps.length ≠ i := by omega
  have hnek : s.sps.length ≠ k := by omega
  refine ⟨_, sp_assign_closed hinv hi hk, ?_, ?_, ?_, ?_⟩
  · rw [sp_eta, sp_set_sp_other _ _ hne, sp_call_if, sp_set_sp_other _ _ hne]
    refine sp_set_sp_same (x := a) b ?_
    exact sp_push_sp_old _ (by simpa using hi)
  · rw [sp_set_sp_other _ _ hnek, sp_call_if, sp_set_sp_other _ _ hnek]
    by_cases hik : i = k
    · subst hik
      refine sp_set_sp_same (x := a) b ?_
      exact sp_push_sp_old _ (by simpa using hi)
    · rw [sp_set_sp_other _ _ hik]
      exact sp_push_sp_old _ (by simpa using hk)
  · intro c
    simp only [heap_set_sp, heap_call_if_apply, heap_push_sp]
    by_cases ha : a._pcb = some c <;> by_cases hb : b._pcb = some c <;>
      simp [ha, hb, use_count_release, control_block.acquire]
  · intro c
    simp only [heap_set_sp, heap_call_if_apply, heap_push_sp]
    by_cases ha : a._pcb = some c
    · by_cases hb : b._pcb = some c
      · obtain ⟨hlt, hpos⟩ := Inv_sp_lt hinv (sp_lookup hi) ha
        have hcnt := ((hinv c).1 hlt).1
        have h1 : ¬ ((s.heap c)._use_count + 1 = 1) := by omega
        simp [ha, hb, deleter_calls_release, control_block.acquire, h1]
      · simp [ha, hb, deleter_calls_release]
    · by_cases hb : b._pcb = some c <;> simp [ha, hb, control_block.acquire]

/-- Witness for C11: `a(new T)` at 5, `b(new T)` at 6, then `a = b` (the
object at 5 is destroyed), and the self-assignment `b = b` in the same start
state (nothing changes). -/
theorem C11_copy_assignment_witness :
    Reachable (run [.sp_from_ptr 5, .sp_from_ptr 6]) ∧
    (run [.sp_from_ptr 5, .sp_from_ptr 6]).sp 0 = .ok { _pcb := some 0, _stored_ptr := 5 } ∧
    (run [.sp_from_ptr 5, .sp_from_ptr 6]).sp 1 = .ok { _pcb := some 1, _stored_ptr := 6 } ∧
    (∃ t, sp_assign (run [.sp_from_ptr 5, .sp_from_ptr 6]) 0 1 = .ok t ∧
      t.sp 0 = .ok { _pcb := some 1, _stored_ptr := 6 } ∧
      (t.heap 1)._use_count = 2 ∧ (t.heap 0)._use_count = 0 ∧
      (t.heap 0).deleter_calls = 1 ∧ (t.heap 1).deleter_calls = 0) ∧
    (∃ t, sp_assign (run [.sp_from_ptr 5, .sp_from_ptr 6]) 1 1 = .ok t ∧
      t.sp 1 = .ok { _pcb := some 1, _stored_ptr := 6 } ∧
      (t.heap 1)._use_count = 1 ∧ (t.heap 1).deleter_calls = 0) := by
  refine ⟨reachable_run _, rfl, rfl, ?_, ?_⟩
  · obtain ⟨t, h1, h2, _, h4, h5⟩ :=
      C11_copy_assignment (run [.sp_from_ptr 5, .sp_from_ptr 6]) (reachable_run _) 0 1
        { _pcb := some 0, _stored_ptr := 5 } { _pcb := some 1, _stored_ptr := 6 } rfl rfl
    exact ⟨t, h1, h2, h4 1, h4 0, h5 0, h5 1⟩
  · obtain ⟨t, h1, h2, _, h4, h5⟩ :=
      C11_copy_assignment (run [.sp_from_ptr 5, .sp_from_ptr 6]) (reachable_run _) 1 1
        { _pcb := some 1, _stored_ptr := 6 } { _pcb := some 1, _stored_ptr := 6 } rfl rfl
    exact ⟨t, h1, h2, h4 1, h5 1⟩

theorem sp_swap_comm {s : State} {i k : Nat} {a c : shared_ptr} (ha : s.sp i = .ok a)
    (hc : s.sp k = .ok c) : sp_swap s i k = sp_swap s k i := by
  rw [sp_swap_eq ha hc, sp_swap_eq hc ha]
  by_cases hik : i = k
  · subst hik
    rw [ha] at hc
    cases hc
    rfl
  · simp only [State.set_sp]
    rw [List.set_comm _ _ _ hik]

theorem sp_reset_closed {s : State} (hs : Inv s) {i : Nat} {h : shared_ptr}
    (hi : s.sp i = .ok h) :
    sp_reset s i = .ok
      (((((s.push_sp { _pcb := none, _stored_ptr := 0 }).set_sp s.sps.length (some h)).set_sp
        i (some { _pcb := none, _stored_ptr := 0 })).call_if h._pcb
        control_block.release).set_sp s.sps.length none) := by
  have h1 : sp_default s = .ok (s.push_sp { _pcb := none, _stored_ptr := 0 }) := rfl
  have hs1 := Inv_sp_default hs h1
  have hold := sp_push_sp_old { _pcb := none, _stored_ptr := 0 } hi
  have hnew := sp_push_sp_new s { _pcb := none, _stored_ptr := 0 }
  have h2 := sp_swap_eq hnew hold
  rw [sp_eta] at h2
  have hs2 := Inv_sp_swap hs1 h2
  have hne : i ≠ s.sps.length := by
    have := sp_lt_length hi
    omega
  have htmp : (((s.push_sp { _pcb := none, _stored_ptr := 0 }).set_sp s.sps.length
      (some h)).set_sp i (some { _pcb := none, _stored_ptr := 0 })).sp s.sps.length
      = .ok h := by
    rw [sp_set_sp_other _ _ hne]
    exact sp_set_sp_same h hnew
  have h3 := sp_dtor_closed hs2 htmp
  unfold sp_reset
  rw [h1, ok_bind, h2, ok_bind, h3]

theorem sp_reset_ptr_closed {s : State} (hs : Inv s) {i : Nat} {h : shared_ptr} (p : Nat)
    (hi : s.sp i = .ok h) :
    sp_reset_ptr s i p = .ok
      ((((((s.alloc p 0).push_sp { _pcb := some s.next_block, _stored_ptr := p }).set_sp
        s.sps.length (some h)).set_sp i
        (some { _pcb := some s.next_block, _stored_ptr := p })).call_if h._pcb
        control_block.release).set_sp s.sps.length none) := by
  have h1 : sp_from_ptr s p = .ok ((s.alloc p 0).push_sp
      { _pcb := some s.next_block, _stored_ptr := p }) := rfl
  have hs1 := Inv_sp_from_ptr_deleter hs h1
  have hold : ((s.alloc p 0).push_sp { _pcb := some s.next_block, _stored_ptr := p }).sp i
      = .ok h := sp_push_sp_old _ (by simpa using hi)
  have hnew : ((s.alloc p 0).push_sp { _pcb := some s.next_block, _stored_ptr := p }).sp
      s.sps.length = .ok { _pcb := some s.next_block, _stored_ptr := p } :=
    sp_push_sp_new (s.alloc p 0) { _pcb := some s.next_block, _stored_ptr := p }
  have h2 := sp_swap_eq hnew hold
  rw [sp_eta] at h2
  have hs2 := Inv_sp_swap hs1 h2
  have hne : i ≠ s.sps.length := by
    have := sp_lt_length hi
    omega
  have htmp : ((((s.alloc p 0).push_sp { _pcb := some s.next_block, _stored_ptr := p }).set_sp
      s.sps.length (some h)).set_sp i
      (some { _pcb := some s.next_block, _stored_ptr := p })).sp s.sps.length = .ok h := by
    rw [sp_set_sp_other _ _ hne]
    exact sp_set_sp_same h hnew
  have h3 := sp_dtor_closed hs2 htmp
  unfold sp_reset_ptr
  rw [h1, ok_bind, h2, ok_bind, h3]

/-- C12: for a live handle `h` (object `i`) in a reachable state.  After
`h.reset()` the handle is empty and null (`use_count() = 0`, `get()` is null,
boolean conversion false) and the strong count of the block it held is one
less (no other strong count changes).  After `h.reset(p)` the handle has
`get() = p` and holds a fresh control block with `use_count() = 1`, and the
strong count of the block it held before is one less.  Either call yields the
same result as constructing the temporary, swapping `h` with it and
destroying the temporary. -/
theorem C12_reset (s : State) (hs : Reachable s) (i p : Nat) (h : shared_ptr)
    (hi : s.sp i = .ok h) :
    (∃ t, sp_reset s i = .ok t ∧
      t.sp i = .ok { _pcb := none, _stored_ptr := 0 } ∧
      sp_use_count t i = .ok 0 ∧
      sp_get t i = .ok 0 ∧
      (t.sp i >>= fun x => pure x.to_bool) = .ok false ∧
      (∀ c, (t.heap c)._use_count =
        (s.heap c)._use_count - (if h._pcb = some c then 1 else 0)) ∧
      sp_reset s i = (sp_default s >>= fun s1 =>
        sp_swap s1 i s.sps.length >>= fun s2 => sp_dtor s2 s.sps.length)) ∧
    (∃ t, sp_reset_ptr s i p = .ok t ∧
      t.sp i = .ok { _pcb := some s.next_block, _stored_ptr := p } ∧
      sp_get t i = .ok p ∧
      sp_use_count t i = .ok 1 ∧
      s.sp_count s.next_block = 0 ∧ s.wp_count s.next_block = 0 ∧
      (t.heap s.next_block)._use_count = 1 ∧
      (t.heap s.next_block)._weak_use_count = 1 ∧
      (∀ c, c ≠ s.next_block → (t.heap c)._use_count =
        (s.heap c)._use_count - (if h._pcb = some c then 1 else 0)) ∧
      sp_reset_ptr s i p = (sp_from_ptr s p >>= fun s1 =>
        sp_swap s1 i s.sps.length >>= fun s2 => sp_dtor s2 s.sps.length)) := by
  have hinv := Inv_of_reachable hs
  have hlen := sp_lt_length hi
  have hne : s.sps.length ≠ i := by omega
  have hfresh := (hinv s.next_block).2 (le_refl _)
  have hpcb : h._pcb ≠ some s.next_block := by
    intro e
    have := (Inv_sp_lt hinv (sp_lookup hi) e).1
    omega
  constructor
  · have hti : (((((s.push_sp { _pcb := none, _stored_ptr := 0 }).set_sp s.sps.length
        (some h)).set_sp i (some { _pcb := none, _stored_ptr := 0 })).call_if h._pcb
        control_block.release).set_sp s.sps.length none).sp i
        = .ok { _pcb := none, _stored_ptr := 0 } := by
      rw [sp_set_sp_other _ _ hne, sp_call_if]
      refine sp_set_sp_same (x := h) _ ?_
      rw [sp_set_sp_other _ _ hne]
      exact sp_push_sp_old _ hi
    refine ⟨_, sp_reset_closed hinv hi, hti, ?_, ?_, ?_, ?_, ?_⟩
    · rw [sp_use_count_eq hti]
      rfl
    · rw [sp_get_eq hti]
    · rw [hti]
      rfl
    · intro c
      simp only [heap_set_sp, heap_call_if_apply, heap_push_sp]
      by_cases ha : h._pcb = some c <;> simp [ha, use_count_release]
    · have h1 : sp_default s = .ok (s.push_sp { _pcb := none, _stored_ptr := 0 }) := rfl
      have hsw := sp_swap_comm (sp_push_sp_old { _pcb := none, _stored_ptr := 0 } hi)
        (sp_push_sp_new s { _pcb := none, _stored_ptr := 0 })
      unfold sp_reset
      rw [h1, ok_bind, ok_bind, hsw]
  · have hti : ((((((s.alloc p 0).push_sp { _pcb := some s.next_block, _stored_ptr := p }).set_sp
        s.sps.length (some h)).set_sp i
        (some { _pcb := some s.next_block, _stored_ptr := p })).call_if h._pcb
        control_block.release).set_sp s.sps.length none).sp i
        = .ok { _pcb := some s.next_block, _stored_ptr := p } := by
      rw [sp_set_sp_other _ _ hne, sp_call_if]
      refine sp_set_sp_same (x := h) _ ?_
      rw [sp_set_sp_other _ _ hne]
      exact sp_push_sp_old _ (by simpa using hi)
    have hheap : ((((((s.alloc p 0).push_sp
        { _pcb := some s.next_block, _stored_ptr := p }).set_sp
        s.sps.length (some h)).set_sp i
        (some { _pcb := some s.next_block, _stored_ptr := p })).call_if h._pcb
        control_block.release).set_sp s.sps.length none).heap s.next_block
        = control_block.ctor p 0 := by
      simp only [heap_set_sp, heap_call_if_apply, heap_push_sp, hpcb, if_false]
      exact heap_alloc_same s p 0
    refine ⟨_, sp_reset_ptr_closed hinv p hi, hti, ?_, ?_, hfresh.1, hfresh.2, ?_, ?_, ?_, ?_⟩
    · rw [sp_get_eq hti]
    · rw [sp_use_count_eq hti]
      simp only [shared_ptr.use_count, control_block.use_count, hheap]
      rfl
    · rw [hheap]
      rfl
    · rw [hheap]
      rfl
    · intro c hc
      simp only [heap_set_sp, heap_call_if_apply, heap_push_sp, heap_alloc_other s p 0 c hc]
      by_cases ha : h._pcb = some c <;> simp [ha, use_count_release]
    · have h1 : sp_from_ptr s p = .ok ((s.alloc p 0).push_sp
          { _pcb := some s.next_block, _stored_ptr := p }) := rfl
      have hold : ((s.alloc p 0).push_sp { _pcb := some s.next_block, _stored_ptr := p }).sp i
          = .ok h := sp_push_sp_old _ (by simpa using hi)
      have hnew : ((s.alloc p 0).push_sp { _pcb := some s.next_block, _stored_ptr := p }).sp
          s.sps.length = .ok { _pcb := some s.next_block, _stored_ptr := p } :=
        sp_push_sp_new (s.alloc p 0) { _pcb := some s.next_block, _stored_ptr := p }
      have hsw := sp_swap_comm hold hnew
      unfold sp_reset_ptr
      rw [h1, ok_bind, ok_bind, hsw]

/-- Witness for C12: `a(new T)` at 5, `b(a)`; then `a.reset()` and, in the
same start state, `a.reset(p)` with `p = 8`. -/
theorem C12_reset_witness :
    Reachable (run [.sp_from_ptr 5, .sp_copy 0]) ∧
    (run [.sp_from_ptr 5, .sp_copy 0]).sp 0 = .ok { _pcb := some 0, _stored_ptr := 5 } ∧
    ((run [.sp_from_ptr 5, .sp_copy 0]).heap 0)._use_count = 2 ∧
    (∃ t, sp_reset (run [.sp_from_ptr 5, .sp_copy 0]) 0 = .ok t ∧
      sp_use_count t 0 = .ok 0 ∧ sp_get t 0 = .ok 0 ∧ (t.heap 0)._use_count = 1) ∧
    (∃ t, sp_reset_ptr (run [.sp_from_ptr 5, .sp_copy 0]) 0 8 = .ok t ∧
      sp_use_count t 0 = .ok 1 ∧ sp_get t 0 = .ok 8 ∧ (t.heap 0)._use_count = 1) := by
  obtain ⟨⟨t, h1, _, h3, h4, _, h6, _⟩, ⟨u, g1, _, g3, g4, _, _, _, _, g9, _⟩⟩ :=
    C12_reset (run [.sp_from_ptr 5, .sp_copy 0]) (reachable_run _) 0 8
      { _pcb := some 0, _stored_ptr := 5 } rfl
  exact ⟨reachable_run _, rfl, rfl, ⟨t, h1, h3, h4, h6 0⟩, ⟨u, g1, g4, g3, g9 0 (by decide)⟩⟩

/-! ## Weak handles and the weak count (C13, C14) -/

theorem wp_push_wp_new (s : State) (w : weak_ptr) :
    (s.push_wp w).wp s.wps.length = .ok w := by
  simp [State.wp, State.push_wp]

theorem wp_lt_length {s : State} {j : Nat} {x : weak_ptr} (e : s.wp j = .ok x) :
    j < s.wps.length := by
  have hl := wp_lookup e
  by_contra hge
  rw [List.getElem?_eq_none (by omega)] at hl
  cases hl

theorem wp_push_wp_old {s : State} {j : Nat} {x : weak_ptr} (w : weak_ptr)
    (e : s.wp j = .ok x) : (s.push_wp w).wp j = .ok x := by
  have hl := wp_lookup e
  have hlt := wp_lt_length e
  simp [State.wp, State.push_wp, List.getElem?_append_left hlt, hl]

@[simp] theorem wp_upd (s : State) (c : Nat) (f : control_block → control_block) (j : Nat) :
    (s.upd c f).wp j = s.wp j := rfl

@[simp] theorem wp_call_if (s : State) (pcb : Option Nat) (f : control_block → control_block)
    (j : Nat) : (s.call_if pcb f).wp j = s.wp j := by
  cases pcb <;> rfl

@[simp] theorem wps_call_if (s : State) (pcb : Option Nat) (f : control_block → control_block) :
    (s.call_if pcb f).wps = s.wps := by
  cases pcb <;> rfl

@[simp] theorem sp_push_wp (s : State) (w : weak_ptr) (i : Nat) :
    (s.push_wp w).sp i = s.sp i := rfl

@[simp] theorem sp_set_wp (s : State) (j : Nat) (w : Option weak_ptr) (i : Nat) :
    (s.set_wp j w).sp i = s.sp i := rfl

theorem weak_use_count_release_weak (cb : control_block) :
    cb.release_weak._weak_use_count = cb._weak_use_count - 1 := by
  simp only [control_block.release_weak]
  split <;> rfl

theorem wp_from_shared_eq {s : State} {i : Nat} {h : shared_ptr} (e : s.sp i = .ok h) :
    wp_from_shared s i = .ok ((s.call_if h._pcb control_block.acquire_weak).push_wp
      { _pcb := h._pcb, _stored_ptr := h._stored_ptr }) := by
  unfold wp_from_shared
  rw [e, ok_bind]
  rfl

theorem wp_copy_eq {s : State} {j : Nat} {w : weak_ptr} (e : s.wp j = .ok w) :
    wp_copy s j = .ok ((s.call_if w._pcb control_block.acquire_weak).push_wp
      { _pcb := w._pcb, _stored_ptr := w._stored_ptr }) := by
  unfold wp_copy
  rw [e, ok_bind]
  rfl

theorem wp_dtor_eq {s : State} {j : Nat} {w : weak_ptr} (e : s.wp j = .ok w) :
    wp_dtor s j = .ok ((s.call_if w._pcb control_block.release_weak).set_wp j none) := by
  unfold wp_dtor
  rw [e, ok_bind]
  rfl

theorem wp_use_count_eq {s : State} {j : Nat} {w : weak_ptr} (e : s.wp j = .ok w) :
    wp_use_count s j = .ok (w.use_count s.heap) := by
  unfold wp_use_count
  rw [e, ok_bind]
  rfl

/-- Facts about the state in which a new `weak_ptr` has been attached to a
block `b` that a live `shared_ptr` holds. -/
theorem weak_attach {s : State} (hinv : Inv s) {i b : Nat} {h : shared_ptr}
    (hi : s.sp i = .ok h) (hb : h._pcb = some b) (q : Nat) (t : State)
    (ht : t = (s.upd b control_block.acquire_weak).push_wp
      { _pcb := some b, _stored_ptr := q }) :
    t.wp s.wps.length = .ok { _pcb := some b, _stored_ptr := q } ∧
    (t.heap b)._use_count = (s.heap b)._use_count ∧
    (t.heap b)._weak_use_count = (s.heap b)._weak_use_count + 1 ∧
    wp_use_count t s.wps.length = .ok (s.heap b)._use_count ∧
    sp_use_count t i = .ok (s.heap b)._use_count ∧
    (t.heap b).deleter_calls = 0 ∧
    (∃ u, wp_dtor t s.wps.length = .ok u ∧
      (u.heap b)._weak_use_count = (s.heap b)._weak_use_count ∧
      (u.heap b)._use_count = (s.heap b)._use_count ∧
      (u.heap b).deleter_calls = 0 ∧
      (u.heap b).deleted = 0 ∧
      sp_use_count u i = .ok (s.heap b)._use_count) := by
  subst ht
  obtain ⟨hlt, hpos⟩ := Inv_sp_lt hinv (sp_lookup hi) hb
  obtain ⟨hu, hw, hd, hc⟩ := (hinv b).1 hlt
  have hne0 : ¬ (s.sp_count b = 0) := by omega
  have hdc : (s.heap b).deleter_calls = 0 := by
    rw [hc]
    simp [hne0]
  have hdel : (s.heap b).deleted = 0 := by
    rw [hd]
    simp [hne0]
  have hwpos : 1 ≤ (s.heap b)._weak_use_count := by
    rw [hw, if_pos hpos]
    omega
  have hnew := wp_push_wp_new (s.upd b control_block.acquire_weak)
    { _pcb := some b, _stored_ptr := q }
  have hnew2 : ((s.upd b control_block.acquire_weak).push_wp
      { _pcb := some b, _stored_ptr := q }).wp s.wps.length
      = .ok { _pcb := some b, _stored_ptr := q } := hnew
  have hsp : ((s.upd b control_block.acquire_weak).push_wp
      { _pcb := some b, _stored_ptr := q }).sp i = .ok h := by
    simpa using hi
  refine ⟨hnew2, ?_, ?_, ?_, ?_, ?_, ?_⟩
  · simp [control_block.acquire_weak]
  · simp [control_block.acquire_weak]
  · rw [wp_use_count_eq hnew2]
    simp [weak_ptr.use_count, control_block.use_count, control_block.acquire_weak]
  · rw [sp_use_count_eq hsp]
    simp [shared_ptr.use_count, hb, control_block.use_count, control_block.acquire_weak]
  · simpa [control_block.acquire_weak] using hdc
  · refine ⟨_, wp_dtor_eq hnew2, ?_, ?_, ?_, ?_, ?_⟩
    · simp [State.call_if, weak_use_count_release_weak, control_block.acquire_weak]
    · simp [State.call_if, use_count_release_weak, control_block.acquire_weak]
    · simpa [State.call_if, deleter_calls_release_weak, control_block.acquire_weak] using hdc
    · have h1 : ¬ ((s.heap b)._weak_use_count + 1 = 1) := by omega
      simpa [State.call_if, deleted_release_weak, control_block.acquire_weak, h1] using hdel
    · have hsp2 : ((((s.upd b control_block.acquire_weak).push_wp
          { _pcb := some b, _stored_ptr := q }).call_if (some b)
          control_block.release_weak).set_wp s.wps.length none).sp i = .ok h := by
        simpa using hi
      rw [sp_use_count_eq hsp2]
      simp [shared_ptr.use_count, hb, State.call_if, control_block.use_count,
        use_count_release_weak, control_block.acquire_weak]

/-- C13: for a live `shared_ptr` (object `i`) that holds block `b` with strong
count `n` and weak count `m` in a reachable state (so `n > 0`).  Constructing
a `weak_ptr` from it, or copying a `weak_ptr` that refers to `b`, yields a
`weak_ptr` on `b`, leaves the strong count at `n`, raises the weak count to
`m + 1`, and both handles report `use_count() = n`; the deleter has not run.
Destroying the new `weak_ptr` restores the weak count to `m`, leaves the
strong count at `n`, and neither runs the deleter nor deletes the block.  In
every reachable state a `weak_ptr` reports as `use_count()` the number of live
`shared_ptr` objects on its block, hence 0 once the last one is dropped. -/
theorem C13_weak_ptr_leaves_strong_count (s : State) (hs : Reachable s) (i b : Nat)
    (h : shared_ptr) (n m : Int) (hi : s.sp i = .ok h) (hb : h._pcb = some b)
    (hn : (s.heap b)._use_count = n) (hm : (s.heap b)._weak_use_count = m) :
    0 < n ∧
    (∃ t, wp_from_shared s i = .ok t ∧
      t.wp s.wps.length = .ok { _pcb := some b, _stored_ptr := h._stored_ptr } ∧
      (t.heap b)._use_count = n ∧
      (t.heap b)._weak_use_count = m + 1 ∧
      wp_use_count t s.wps.length = .ok n ∧
      sp_use_count t i = .ok n ∧
      (t.heap b).deleter_calls = 0 ∧
      (∃ u, wp_dtor t s.wps.length = .ok u ∧
        (u.heap b)._weak_use_count = m ∧
        (u.heap b)._use_count = n ∧
        (u.heap b).deleter_calls = 0 ∧
        (u.heap b).deleted = 0 ∧
        sp_use_count u i = .ok n)) ∧
    (∀ j w, s.wp j = .ok w → w._pcb = some b →
      ∃ t, wp_copy s j = .ok t ∧
        t.wp s.wps.length = .ok { _pcb := some b, _stored_ptr := w._stored_ptr } ∧
        (t.heap b)._use_count = n ∧
        (t.heap b)._weak_use_count = m + 1 ∧
        wp_use_count t s.wps.length = .ok n ∧
        sp_use_count t i = .ok n ∧
        (t.heap b).deleter_calls = 0 ∧
        (∃ u, wp_dtor t s.wps.length = .ok u ∧
          (u.heap b)._weak_use_count = m ∧
          (u.heap b)._use_count = n ∧
          (u.heap b).deleter_calls = 0 ∧
          (u.heap b).deleted = 0 ∧
          sp_use_count u i = .ok n)) ∧
    (∀ v j w c, Reachable v → v.wp j = .ok w → w._pcb = some c →
      wp_use_count v j = .ok (v.sp_count c : Int)) := by
  have hinv := Inv_of_reachable hs
  obtain ⟨hlt, hpos⟩ := Inv_sp_lt hinv (sp_lookup hi) hb
  have hcnt := ((hinv b).1 hlt).1
  subst hn hm
  refine ⟨by omega, ?_, ?_, ?_⟩
  · have he := wp_from_shared_eq hi
    rw [hb] at he
    exact ⟨_, he, weak_attach hinv hi hb h._stored_ptr _ rfl⟩
  · intro j w hj hw
    have he := wp_copy_eq hj
    rw [hw] at he
    exact ⟨_, he, weak_attach hinv hi hb w._stored_ptr _ rfl⟩
  · intro v j w c hv hj hw
    have hvinv := Inv_of_reachable hv
    obtain ⟨hlt2, _⟩ := Inv_wp_lt hvinv (wp_lookup hj) hw
    rw [wp_use_count_eq hj]
    simp only [weak_ptr.use_count, hw, control_block.use_count]
    rw [((hvinv c).1 hlt2).1]

/-- Witness for C13: `a(new T)` at 5 (strong 1, weak 1), then `w(a)`, then
`~w`; and `w.use_count()` after `a` has been dropped. -/
theorem C13_weak_ptr_leaves_strong_count_witness :
    Reachable (run [.sp_from_ptr 5]) ∧
    (run [.sp_from_ptr 5]).sp 0 = .ok { _pcb := some 0, _stored_ptr := 5 } ∧
    ((run [.sp_from_ptr 5]).heap 0)._use_count = 1 ∧
    ((run [.sp_from_ptr 5]).heap 0)._weak_use_count = 1 ∧
    (∃ t, wp_from_shared (run [.sp_from_ptr 5]) 0 = .ok t ∧
      (t.heap 0)._use_count = 1 ∧ (t.heap 0)._weak_use_count = 2 ∧
      wp_use_count t 0 = .ok 1 ∧
      ∃ u, wp_dtor t 0 = .ok u ∧ (u.heap 0)._weak_use_count = 1 ∧
        (u.heap 0)._use_count = 1 ∧ (u.heap 0).deleter_calls = 0) ∧
    wp_use_count (run [.sp_from_ptr 5, .wp_from_shared 0, .sp_dtor 0]) 0 = .ok 0 := by
  obtain ⟨_, ⟨t, h1, _, h3, h4, h5, _, _, u, g1, g2, g3, g4, _⟩, _, hall⟩ :=
    C13_weak_ptr_leaves_strong_count (run [.sp_from_ptr 5]) (reachable_run _) 0 0
      { _pcb := some 0, _stored_ptr := 5 } 1 1 rfl rfl rfl rfl
  exact ⟨reachable_run _, rfl, rfl, rfl, ⟨t, h1, h3, h4, h5, u, g1, g2, g3, g4⟩,
    hall (run [.sp_from_ptr 5, .wp_from_shared 0, .sp_dtor 0]) 0
      { _pcb := some 0, _stored_ptr := 5 } 0 (reachable_run _) rfl rfl⟩

/-- C14: in every reachable state the weak count `_weak_use_count` of every
allocated control block equals the number of live `weak_ptr` objects that
refer to it, plus one if its strong count is positive; so `weak_use_count()`
equals the number of live `weak_ptr` objects on the block, and neither number
is negative. -/
theorem C14_weak_count_eq_live_weak (s : State) (hs : Reachable s) (b : Nat)
    (hb : b < s.next_block) :
    (s.heap b)._weak_use_count =
      (s.wp_count b : Int) + (if 0 < (s.heap b)._use_count then 1 else 0) ∧
    (s.heap b).weak_use_count = (s.wp_count b : Int) ∧
    0 ≤ (s.heap b)._weak_use_count ∧
    0 ≤ (s.heap b).weak_use_count := by
  obtain ⟨hu, hw, _, _⟩ := (Inv_of_reachable hs b).1 hb
  have h1 : (s.heap b)._weak_use_count =
      (s.wp_count b : Int) + (if 0 < (s.heap b)._use_count then 1 else 0) := by
    rw [hw, hu]
    by_cases h0 : 0 < s.sp_count b
    · simp [h0]
    · simp [h0]
  have h2 : (s.heap b).weak_use_count = (s.wp_count b : Int) := by
    simp only [control_block.weak_use_count, gt_iff_lt]
    rw [h1]
    omega
  refine ⟨h1, h2, ?_, ?_⟩
  · rw [h1]
    split <;> omega
  · rw [h2]
    omega

/-- Witness for C14: one owner and two `weak_ptr`s give weak count 3 and
`weak_use_count() = 2`; after the owner is dropped the weak count is 2. -/
theorem C14_weak_count_eq_live_weak_witness :
    (Reachable (run [.sp_from_ptr 5, .wp_from_shared 0, .wp_copy 0]) ∧
      (run [.sp_from_ptr 5, .wp_from_shared 0, .wp_copy 0]).wp_count 0 = 2 ∧
      ((run [.sp_from_ptr 5, .wp_from_shared 0, .wp_copy 0]).heap 0)._weak_use_count = 3 ∧
      ((run [.sp_from_ptr 5, .wp_from_shared 0, .wp_copy 0]).heap 0).weak_use_count
        = ((run [.sp_from_ptr 5, .wp_from_shared 0, .wp_copy 0]).wp_count 0 : Int)) ∧
    (Reachable (run [.sp_from_ptr 5, .wp_from_shared 0, .wp_copy 0, .sp_dtor 0]) ∧
      ((run [.sp_from_ptr 5, .wp_from_shared 0, .wp_copy 0, .sp_dtor 0]).heap 0)._weak_use_count
        = 2 ∧
      ((run [.sp_from_ptr 5, .wp_from_shared 0, .wp_copy 0, .sp_dtor 0]).heap 0).weak_use_count
        = ((run [.sp_from_ptr 5, .wp_from_shared 0, .wp_copy 0, .sp_dtor 0]).wp_count 0 : Int)) :=
  ⟨⟨reachable_run _, by decide, by decide,
      (C14_weak_count_eq_live_weak (run [.sp_from_ptr 5, .wp_from_shared 0, .wp_copy 0])
        (reachable_run _) 0 (by decide)).2.1⟩,
   ⟨reachable_run _, by decide,
      (C14_weak_count_eq_live_weak
        (run [.sp_from_ptr 5, .wp_from_shared 0, .wp_copy 0, .sp_dtor 0])
        (reachable_run _) 0 (by decide)).2.1⟩⟩

/-! ## What an operation leaves alone -/

theorem frame_refl (s : State) : frame_ok s s :=
  ⟨le_refl _, fun _ _ => ⟨rfl, rfl, fun h => h⟩⟩

theorem frame_trans {s t u : State} (h1 : frame_ok s t) (h2 : frame_ok t u) :
    frame_ok s u := by
  refine ⟨le_trans h1.1 h2.1, ?_⟩
  intro b hb
  obtain ⟨a1, a2, a3⟩ := h1.2 b hb
  obtain ⟨b1, b2, b3⟩ := h2.2 b (lt_of_lt_of_le hb h1.1)
  exact ⟨b1.trans a1, b2.trans a2, fun h => b3 (a3 h)⟩

theorem frame_of_heap_eq {s t : State} (hn : t.next_block = s.next_block)
    (hh : t.heap = s.heap) : frame_ok s t := by
  refine ⟨by omega, ?_⟩
  intro b _
  rw [hh]
  exact ⟨rfl, rfl, fun h => h⟩

theorem frame_call_if {s t : State} (pcb : Option Nat) (f : control_block → control_block)
    (hn : t.next_block = s.next_block) (hh : t.heap = (s.call_if pcb f).heap)
    (hf1 : ∀ cb, (f cb).owned_ptr = cb.owned_ptr)
    (hf2 : ∀ cb, (f cb)._deleter = cb._deleter)
    (hf3 : ∀ c, pcb = some c → (s.heap c)._use_count = 0 → (f (s.heap c))._use_count = 0) :
    frame_ok s t := by
  refine ⟨by omega, ?_⟩
  intro b _
  rw [hh, heap_call_if_apply]
  by_cases hp : pcb = some b
  · rw [if_pos hp]
    exact ⟨hf1 _, hf2 _, hf3 b hp⟩
  · rw [if_neg hp]
    exact ⟨rfl, rfl, fun h => h⟩

theorem next_call_if (s : State) (pcb : Option Nat) (f : control_block → control_block) :
    (s.call_if pcb f).next_block = s.next_block := by
  cases pcb <;> rfl

theorem frame_alloc {s t : State} (p d : Nat) (hn : t.next_block = s.next_block + 1)
    (hh : t.heap = (s.alloc p d).heap) : frame_ok s t := by
  refine ⟨by omega, ?_⟩
  intro b hb
  rw [hh, heap_alloc_other s p d b (by omega)]
  exact ⟨rfl, rfl, fun h => h⟩

theorem owned_ptr_release_weak (cb : control_block) :
    cb.release_weak.owned_ptr = cb.owned_ptr := by
  simp only [control_block.release_weak]
  split <;> rfl

theorem deleter_release_weak (cb : control_block) :
    cb.release_weak._deleter = cb._deleter := by
  simp only [control_block.release_weak]
  split <;> rfl

theorem owned_ptr_release (cb : control_block) : cb.release.owned_ptr = cb.owned_ptr := by
  simp only [control_block.release]
  split
  · rw [owned_ptr_release_weak]
    split <;> rfl
  · rfl

theorem deleter_release (cb : control_block) : cb.release._deleter = cb._deleter := by
  simp only [control_block.release]
  split
  · rw [deleter_release_weak]
    split <;> rfl
  · rfl

theorem use_count_pos_of_live {s : State} (hs : Inv s) {i c : Nat} {x : shared_ptr}
    (hx : s.sp i = .ok x) (hc : x._pcb = some c) : 0 < (s.heap c)._use_count := by
  obtain ⟨hlt, hpos⟩ := Inv_sp_lt hs (sp_lookup hx) hc
  have := ((hs c).1 hlt).1
  omega

theorem frame_acquire_push {s : State} (hs : Inv s) {i : Nat} {x : shared_ptr}
    (hx : s.sp i = .ok x) (q : Nat) :
    frame_ok s ((s.call_if x._pcb control_block.acquire).push_sp
      { _pcb := x._pcb, _stored_ptr := q }) := by
  refine frame_call_if x._pcb control_block.acquire (next_call_if _ _ _) rfl (fun _ => rfl) (fun _ => rfl) ?_
  intro c hc h0
  have := use_count_pos_of_live hs hx hc
  omega

theorem frame_sp_copy {s t : State} (hs : Inv s) {i : Nat} (e : sp_copy s i = .ok t) :
    frame_ok s t := by
  obtain ⟨x, hx, _⟩ := bind_ok e
  rw [sp_copy_eq hx] at e
  cases e
  exact frame_acquire_push hs hx _

theorem frame_sp_alias {s t : State} (hs : Inv s) {i p : Nat} (e : sp_alias s i p = .ok t) :
    frame_ok s t := by
  obtain ⟨x, hx, _⟩ := bind_ok e
  rw [sp_alias_eq p hx] at e
  cases e
  exact frame_acquire_push hs hx _

theorem frame_sp_move {s t : State} {i : Nat} (e : sp_move s i = .ok t) : frame_ok s t := by
  obtain ⟨x, _, e1⟩ := bind_ok e
  cases pure_ok e1
  exact frame_of_heap_eq rfl rfl

theorem frame_sp_dtor {s t : State} (hs : Inv s) {i : Nat} (e : sp_dtor s i = .ok t) :
    frame_ok s t := by
  obtain ⟨x, hx, _⟩ := bind_ok e
  rw [sp_dtor_closed hs hx] at e
  cases e
  refine frame_call_if x._pcb control_block.release (next_call_if _ _ _) rfl owned_ptr_release
    deleter_release ?_
  intro c hc h0
  have := use_count_pos_of_live hs hx hc
  omega

theorem frame_sp_swap {s t : State} {i k : Nat} (e : sp_swap s i k = .ok t) :
    frame_ok s t := by
  obtain ⟨a, _, e1⟩ := bind_ok e
  obtain ⟨c, _, e2⟩ := bind_ok e1
  cases pure_ok e2
  exact frame_of_heap_eq rfl rfl

theorem frame_sp_from_ptr_deleter {s t : State} {p d : Nat}
    (e : sp_from_ptr_deleter s p d = .ok t) : frame_ok s t := by
  cases e
  exact frame_alloc p d rfl rfl

theorem frame_sp_from_null_deleter {s t : State} {d : Nat}
    (e : sp_from_null_deleter s d = .ok t) : frame_ok s t := by
  cases e
  exact frame_alloc 0 d rfl rfl

theorem frame_sp_default {s t : State} (e : sp_default s = .ok t) : frame_ok s t := by
  cases e
  exact frame_of_heap_eq rfl rfl

theorem frame_wp_default {s t : State} (e : wp_default s = .ok t) : frame_ok s t := by
  cases e
  exact frame_of_heap_eq rfl rfl

theorem frame_wp_copy {s t : State} {j : Nat} (e : wp_copy s j = .ok t) : frame_ok s t := by
  obtain ⟨x, hx, _⟩ := bind_ok e
  rw [wp_copy_eq hx] at e
  cases e
  exact frame_call_if x._pcb control_block.acquire_weak (next_call_if _ _ _) rfl (fun _ => rfl) (fun _ => rfl)
    (fun _ _ h => h)

theorem frame_wp_from_shared {s t : State} {i : Nat} (e : wp_from_shared s i = .ok t) :
    frame_ok s t := by
  obtain ⟨x, hx, _⟩ := bind_ok e
  rw [wp_from_shared_eq hx] at e
  cases e
  exact frame_call_if x._pcb control_block.acquire_weak (next_call_if _ _ _) rfl (fun _ => rfl) (fun _ => rfl)
    (fun _ _ h => h)

theorem frame_wp_move {s t : State} {j : Nat} (e : wp_move s j = .ok t) : frame_ok s t := by
  obtain ⟨x, _, e1⟩ := bind_ok e
  cases pure_ok e1
  exact frame_of_heap_eq rfl rfl

theorem frame_wp_dtor {s t : State} {j : Nat} (e : wp_dtor s j = .ok t) : frame_ok s t := by
  obtain ⟨x, hx, _⟩ := bind_ok e
  rw [wp_dtor_eq hx] at e
  cases e
  refine frame_call_if x._pcb control_block.release_weak (next_call_if _ _ _) rfl owned_ptr_release_weak
    deleter_release_weak ?_
  intro c _ h0
  rw [use_count_release_weak]
  exact h0

theorem frame_wp_swap {s t : State} {j k : Nat} (e : wp_swap s j k = .ok t) :
    frame_ok s t := by
  obtain ⟨a, _, e1⟩ := bind_ok e
  obtain ⟨c, _, e2⟩ := bind_ok e1
  cases pure_ok e2
  exact frame_of_heap_eq rfl rfl

theorem frame_step {s t : State} (hs : Inv s) (op : Op) (e : step s op = .ok t) :
    frame_ok s t := by
  cases op with
  | sp_default => exact frame_sp_default e
  | sp_from_ptr p => exact frame_sp_from_ptr_deleter e
  | sp_from_ptr_deleter p d => exact frame_sp_from_ptr_deleter e
  | sp_from_null_deleter d => exact frame_sp_from_null_deleter e
  | sp_copy i => exact frame_sp_copy hs e
  | sp_alias i p => exact frame_sp_alias hs e
  | sp_move i => exact frame_sp_move e
  | sp_from_weak j => exact absurd e (sp_from_weak_not_ok s t j)
  | sp_dtor i => exact frame_sp_dtor hs e
  | sp_swap i k => exact frame_sp_swap e
  | sp_assign i k =>
    obtain ⟨s1, h1, e1⟩ := bind_ok e
    obtain ⟨s2, h2, e2⟩ := bind_ok e1
    exact frame_trans (frame_trans (frame_sp_copy hs h1) (frame_sp_swap h2))
      (frame_sp_dtor (Inv_sp_swap (Inv_sp_copy hs h1) h2) e2)
  | sp_move_assign i k =>
    obtain ⟨s1, h1, e1⟩ := bind_ok e
    obtain ⟨s2, h2, e2⟩ := bind_ok e1
    exact frame_trans (frame_trans (frame_sp_copy hs h1) (frame_sp_swap h2))
      (frame_sp_dtor (Inv_sp_swap (Inv_sp_copy hs h1) h2) e2)
  | sp_move_assign_tpl i k =>
    obtain ⟨s1, h1, e1⟩ := bind_ok e
    obtain ⟨s2, h2, e2⟩ := bind_ok e1
    exact frame_trans (frame_trans (frame_sp_move h1) (frame_sp_swap h2))
      (frame_sp_dtor (Inv_sp_swap (Inv_sp_move hs h1) h2) e2)
  | sp_reset i =>
    obtain ⟨s1, h1, e1⟩ := bind_ok e
    obtain ⟨s2, h2, e2⟩ := bind_ok e1
    exact frame_trans (frame_trans (frame_sp_default h1) (frame_sp_swap h2))
      (frame_sp_dtor (Inv_sp_swap (Inv_sp_default hs h1) h2) e2)
  | sp_reset_ptr i p =>
    obtain ⟨s1, h1, e1⟩ := bind_ok e
    obtain ⟨s2, h2, e2⟩ := bind_ok e1
    exact frame_trans (frame_trans (frame_sp_from_ptr_deleter h1) (frame_sp_swap h2))
      (frame_sp_dtor (Inv_sp_swap (Inv_sp_from_ptr_deleter hs h1) h2) e2)
  | wp_default => exact frame_wp_default e
  | wp_copy j => exact frame_wp_copy e
  | wp_move j => exact frame_wp_move e
  | wp_from_shared i => exact frame_wp_from_shared e
  | wp_dtor j => exact frame_wp_dtor e
  | wp_swap j k => exact frame_wp_swap e
  | wp_assign j k =>
    obtain ⟨s1, h1, e1⟩ := bind_ok e
    obtain ⟨s2, h2, e2⟩ := bind_ok e1
    exact frame_trans (frame_trans (frame_wp_copy h1) (frame_wp_swap h2)) (frame_wp_dtor e2)
  | wp_assign_shared j i =>
    obtain ⟨s1, h1, e1⟩ := bind_ok e
    obtain ⟨s2, h2, e2⟩ := bind_ok e1
    exact frame_trans (frame_trans (frame_wp_from_shared h1) (frame_wp_swap h2))
      (frame_wp_dtor e2)
  | wp_move_assign j k =>
    obtain ⟨s1, h1, e1⟩ := bind_ok e
    obtain ⟨s2, h2, e2⟩ := bind_ok e1
    exact frame_trans (frame_trans (frame_wp_move h1) (frame_wp_swap h2)) (frame_wp_dtor e2)
  | wp_reset j =>
    obtain ⟨s1, h1, e1⟩ := bind_ok e
    obtain ⟨s2, h2, e2⟩ := bind_ok e1
    exact frame_trans (frame_trans (frame_wp_default h1) (frame_wp_swap h2)) (frame_wp_dtor e2)
  | wp_lock j =>
    obtain ⟨w, hw, e1⟩ := bind_ok e
    obtain ⟨x, hx, e2⟩ := bind_ok e1
    split at e2
    · exact frame_sp_default e2
    · exact absurd e2 (sp_from_weak_not_ok s t j)

theorem frame_exec {s : State} (hs : Reachable s) (op : Op) : frame_ok s (exec s op) := by
  unfold exec
  split
  · rename_i t e
    exact frame_step (Inv_of_reachable hs) op e
  · exact frame_refl s

theorem reachable_foldl {s : State} (hs : Reachable s) (ops : List Op) :
    Reachable (ops.foldl exec s) := by
  induction ops generalizing s with
  | nil => exact hs
  | cons op rest ih => exact ih (reachable_exec hs op)

theorem frame_foldl {s : State} (hs : Reachable s) (ops : List Op) :
    frame_ok s (ops.foldl exec s) := by
  induction ops generalizing s with
  | nil => exact frame_refl s
  | cons op rest ih =>
    exact frame_trans (frame_exec hs op) (ih (reachable_exec hs op))

/-! ## Expired blocks stay expired; custom deleters (C15, C16) -/

/-- C15: when the strong count of an allocated block `b` is 0 in a reachable
state, it is 0 after every further sequence of handle operations (operations
that throw leave the state as it is), and no live `shared_ptr` refers to `b`
then; in particular no single operation that completes raises it. -/
theorem C15_expired_stays_expired (s : State) (hs : Reachable s) (b : Nat)
    (hb : b < s.next_block) (h0 : (s.heap b)._use_count = 0) (ops : List Op) :
    ((ops.foldl exec s).heap b)._use_count = 0 ∧
    (ops.foldl exec s).sp_count b = 0 ∧
    (∀ op t, step s op = .ok t → (t.heap b)._use_count = 0) := by
  have hf := frame_foldl hs ops
  have h1 := (hf.2 b hb).2.2 h0
  have hinv := Inv_of_reachable (reachable_foldl hs ops)
  have hcnt := ((hinv b).1 (lt_of_lt_of_le hb hf.1)).1
  refine ⟨h1, by omega, ?_⟩
  intro op t e
  exact ((frame_step (Inv_of_reachable hs) op e).2 b hb).2.2 h0

/-- Witness for C15: the owner of block 0 is dropped while a `weak_ptr` is
alive; `lock()`, construction from the `weak_ptr`, copies and assignments
leave the strong count at 0. -/
theorem C15_expired_stays_expired_witness :
    Reachable (run [.sp_from_ptr 5, .wp_from_shared 0, .sp_dtor 0]) ∧
    ((run [.sp_from_ptr 5, .wp_from_shared 0, .sp_dtor 0]).heap 0)._use_count = 0 ∧
    (([Op.wp_lock 0, .sp_from_weak 0, .wp_copy 0, .sp_copy 1, .sp_alias 1 7,
        .sp_assign 2 1].foldl exec
      (run [.sp_from_ptr 5, .wp_from_shared 0, .sp_dtor 0])).heap 0)._use_count = 0 :=
  ⟨reachable_run _, by decide,
    (C15_expired_stays_expired (run [.sp_from_ptr 5, .wp_from_shared 0, .sp_dtor 0])
      (reachable_run _) 0 (by decide) (by decide)
      [Op.wp_lock 0, .sp_from_weak 0, .wp_copy 0, .sp_copy 1, .sp_alias 1 7,
        .sp_assign 2 1]).1⟩

/-- C16 (counterexample): a `shared_ptr` built by the constructor that takes
`nullptr` and deleter 3, then dropped.  The block stored deleter 3 and owned
pointer null; its last (only) `shared_ptr` is gone, the block itself has been
deleted, and the deleter has run 0 times, not once. -/
theorem C16_counterexample_null_deleter_never_runs :
    (run [.sp_from_null_deleter 3]).sp 0 = .ok { _pcb := some 0, _stored_ptr := 0 } ∧
    ((run [.sp_from_null_deleter 3]).heap 0)._deleter = 3 ∧
    ((run [.sp_from_null_deleter 3]).heap 0).owned_ptr = 0 ∧
    (run [.sp_from_null_deleter 3, .sp_dtor 0]).sp_count 0 = 0 ∧
    ((run [.sp_from_null_deleter 3, .sp_dtor 0]).heap 0)._use_count = 0 ∧
    ((run [.sp_from_null_deleter 3, .sp_dtor 0]).heap 0).deleted = 1 ∧
    ((run [.sp_from_null_deleter 3, .sp_dtor 0]).heap 0).deleter_calls = 0 ∧
    ((run [.sp_from_null_deleter 3, .sp_dtor 0]).heap 0).deleter_calls ≠ 1 := by
  refine ⟨rfl, ?_, ?_, ?_, ?_, ?_, ?_, ?_⟩ <;> decide

/-- C16 (amended): a `shared_ptr` constructed in a reachable state from a
pointer `p` and a deleter `d` gets a fresh block that stores `p` and `d` for
good.  After any further sequence of operations the number of runs of
`_deleter(owned_ptr)` on that block is 1 if `p` is not null and no live
`shared_ptr` refers to the block any more, and 0 otherwise: for a non-null
`p` the deleter runs exactly once, when the last `shared_ptr` on the block is
dropped and not before, and for a null `p` (also through the constructor that
takes `nullptr` and a deleter) it never runs. -/
theorem C16_custom_deleter_runs_once (s : State) (hs : Reachable s) (p d : Nat)
    (ops : List Op) :
    ((exec s (.sp_from_ptr_deleter p d)).sp s.sps.length
        = .ok { _pcb := some s.next_block, _stored_ptr := p } ∧
      ((ops.foldl exec (exec s (.sp_from_ptr_deleter p d))).heap s.next_block).owned_ptr = p ∧
      ((ops.foldl exec (exec s (.sp_from_ptr_deleter p d))).heap s.next_block)._deleter = d ∧
      ((ops.foldl exec (exec s (.sp_from_ptr_deleter p d))).heap s.next_block).deleter_calls
        = (if (ops.foldl exec (exec s (.sp_from_ptr_deleter p d))).sp_count s.next_block = 0
              ∧ p ≠ 0 then 1 else 0)) ∧
    ((exec s (.sp_from_null_deleter d)).sp s.sps.length
        = .ok { _pcb := some s.next_block, _stored_ptr := 0 } ∧
      ((ops.foldl exec (exec s (.sp_from_null_deleter d))).heap s.next_block).owned_ptr = 0 ∧
      ((ops.foldl exec (exec s (.sp_from_null_deleter d))).heap s.next_block)._deleter = d ∧
      ((ops.foldl exec (exec s (.sp_from_null_deleter d))).heap s.next_block).deleter_calls
        = 0) := by
  constructor
  · have hr := reachable_exec hs (.sp_from_ptr_deleter p d)
    have hf := frame_foldl hr ops
    have hlt : s.next_block < (exec s (.sp_from_ptr_deleter p d)).next_block :=
      Nat.lt_succ_self _
    obtain ⟨f1, f2, _⟩ := hf.2 s.next_block hlt
    have h0 : (exec s (.sp_from_ptr_deleter p d)).heap s.next_block = control_block.ctor p d :=
      heap_alloc_same s p d
    rw [h0] at f1 f2
    have hinv := Inv_of_reachable (reachable_foldl hr ops)
    have hc := ((hinv s.next_block).1 (lt_of_lt_of_le hlt hf.1)).2.2.2
    rw [f1] at hc
    exact ⟨sp_push_sp_new (s.alloc p d) _, f1, f2, hc⟩
  · have hr := reachable_exec hs (.sp_from_null_deleter d)
    have hf := frame_foldl hr ops
    have hlt : s.next_block < (exec s (.sp_from_null_deleter d)).next_block :=
      Nat.lt_succ_self _
    obtain ⟨f1, f2, _⟩ := hf.2 s.next_block hlt
    have h0 : (exec s (.sp_from_null_deleter d)).heap s.next_block = control_block.ctor 0 d :=
      heap_alloc_same s 0 d
    rw [h0] at f1 f2
    have hinv := Inv_of_reachable (reachable_foldl hr ops)
    have hc := ((hinv s.next_block).1 (lt_of_lt_of_le hlt hf.1)).2.2.2
    rw [f1] at hc
    refine ⟨sp_push_sp_new (s.alloc 0 d) _, f1, f2, ?_⟩
    rw [hc]
    simp [control_block.ctor]

/-- Witness for C16: pointer 5 with deleter 3, a copy, and both handles
dropped one after the other: no run of the deleter after the first drop, one
run after the second. -/
theorem C16_custom_deleter_runs_once_witness :
    Reachable (run []) ∧
    (([Op.sp_copy 0, .sp_dtor 0].foldl exec
      (exec (run []) (.sp_from_ptr_deleter 5 3))).heap 0).deleter_calls = 0 ∧
    (([Op.sp_copy 0, .sp_dtor 0, .sp_dtor 1].foldl exec
      (exec (run []) (.sp_from_ptr_deleter 5 3))).heap 0).deleter_calls = 1 ∧
    (([Op.sp_copy 0, .sp_dtor 0, .sp_dtor 1].foldl exec
      (exec (run []) (.sp_from_ptr_deleter 5 3))).heap 0)._deleter = 3 := by
  refine ⟨reachable_run _, ?_, ?_, ?_⟩
  · exact (C16_custom_deleter_runs_once (run []) (reachable_run _) 5 3
      [Op.sp_copy 0, .sp_dtor 0]).1.2.2.2
  · exact (C16_custom_deleter_runs_once (run []) (reachable_run _) 5 3
      [Op.sp_copy 0, .sp_dtor 0, .sp_dtor 1]).1.2.2.2
  · exact (C16_custom_deleter_runs_once (run []) (reachable_run _) 5 3
      [Op.sp_copy 0, .sp_dtor 0, .sp_dtor 1]).1.2.2.1

/-! ## Empty implies null (C17) -/

theorem null_ok_init : null_ok State.init := by
  intro x hx
  simp [State.init] at hx

theorem null_ok_of_sps_eq {s t : State} (h : t.sps = s.sps) (hn : null_ok s) : null_ok t := by
  intro x hx
  rw [h] at hx
  exact hn x hx

theorem null_ok_push {s : State} (hn : null_ok s) (h : shared_ptr)
    (hh : h._pcb = none → h._stored_ptr = 0) : null_ok (s.push_sp h) := by
  intro x hx y hy hp
  simp only [State.push_sp, List.mem_append, List.mem_singleton] at hx
  rcases hx with hx | hx
  · exact hn x hx y hy hp
  · subst hx
    cases hy
    exact hh hp

theorem null_ok_set {s : State} (hn : null_ok s) (i : Nat) (x : Option shared_ptr)
    (hh : ∀ h, x = some h → h._pcb = none → h._stored_ptr = 0) :
    null_ok (s.set_sp i x) := by
  intro y hy z hz hp
  rcases List.mem_or_eq_of_mem_set hy with hy | hy
  · exact hn y hy z hz hp
  · subst hy
    exact hh z hz hp

theorem null_ok_lookup {s : State} (hn : null_ok s) {i : Nat} {h : shared_ptr}
    (hi : s.sp i = .ok h) (hp : h._pcb = none) : h._stored_ptr = 0 :=
  hn (some h) (List.getElem?_mem (sp_lookup hi)) h rfl hp

theorem null_ok_sp_default {s t : State} (hn : null_ok s) (e : sp_default s = .ok t) :
    null_ok t := by
  cases e
  exact null_ok_push hn _ (fun _ => rfl)

theorem null_ok_sp_from_ptr_deleter {s t : State} (hn : null_ok s) {p d : Nat}
    (e : sp_from_ptr_deleter s p d = .ok t) : null_ok t := by
  cases e
  refine null_ok_push (null_ok_of_sps_eq rfl hn) _ ?_
  intro h
  cases h

theorem null_ok_sp_from_null_deleter {s t : State} (hn : null_ok s) {d : Nat}
    (e : sp_from_null_deleter s d = .ok t) : null_ok t := by
  cases e
  exact null_ok_push (null_ok_of_sps_eq rfl hn) _ (fun _ => rfl)

theorem null_ok_sp_copy {s t : State} (hn : null_ok s) {i : Nat} (e : sp_copy s i = .ok t) :
    null_ok t := by
  obtain ⟨x, hx, _⟩ := bind_ok e
  rw [sp_copy_eq hx] at e
  cases e
  exact null_ok_push (null_ok_of_sps_eq (sps_call_if _ _ _) hn) _
    (fun hp => null_ok_lookup hn hx hp)

theorem null_ok_sp_alias {s t : State} (hn : null_ok s) {i p : Nat}
    (hk : (Op.sp_alias i p).keeps_null s = true) (e : sp_alias s i p = .ok t) :
    null_ok t := by
  obtain ⟨x, hx, _⟩ := bind_ok e
  rw [sp_alias_eq p hx] at e
  cases e
  refine null_ok_push (null_ok_of_sps_eq (sps_call_if _ _ _) hn) _ ?_
  intro hp
  simp only [Op.keeps_null, hx] at hk
  simp only [] at hp
  simpa [hp] using hk

theorem null_ok_sp_dtor {s t : State} (hs : Inv s) (hn : null_ok s) {i : Nat}
    (e : sp_dtor s i = .ok t) : null_ok t := by
  obtain ⟨x, hx, _⟩ := bind_ok e
  rw [sp_dtor_closed hs hx] at e
  cases e
  refine null_ok_set (null_ok_of_sps_eq (sps_call_if _ _ _) hn) i none ?_
  intro h hh
  cases hh

theorem null_ok_sp_swap {s t : State} (hn : null_ok s) {i k : Nat}
    (e : sp_swap s i k = .ok t) : null_ok t := by
  obtain ⟨a, ha, e1⟩ := bind_ok e
  obtain ⟨c, hc, _⟩ := bind_ok e1
  rw [sp_swap_eq ha hc] at e
  cases e
  refine null_ok_set (null_ok_set hn i _ ?_) k _ ?_
  · intro h hh hp
    cases hh
    exact null_ok_lookup hn hc hp
  · intro h hh hp
    cases hh
    exact null_ok_lookup hn ha hp

theorem sps_of_wp_step {s t : State} (op : Op) (e : step s op = .ok t)
    (hop : op = .wp_default ∨ (∃ j, op = .wp_copy j) ∨ (∃ j, op = .wp_move j) ∨
      (∃ i, op = .wp_from_shared i) ∨ (∃ j, op = .wp_dtor j) ∨ (∃ j k, op = .wp_swap j k)) :
    t.sps = s.sps := by
  rcases hop with h | ⟨j, h⟩ | ⟨j, h⟩ | ⟨i, h⟩ | ⟨j, h⟩ | ⟨j, k, h⟩ <;> subst h
  · cases e
    rfl
  · obtain ⟨x, hx, _⟩ := bind_ok e
    have e' : wp_copy s j = .ok t := e
    rw [wp_copy_eq hx] at e'
    cases e'
    exact sps_call_if _ _ _
  · obtain ⟨x, _, e1⟩ := bind_ok e
    cases pure_ok e1
    rfl
  · obtain ⟨x, hx, _⟩ := bind_ok e
    have e' : wp_from_shared s i = .ok t := e
    rw [wp_from_shared_eq hx] at e'
    cases e'
    exact sps_call_if _ _ _
  · obtain ⟨x, hx, _⟩ := bind_ok e
    have e' : wp_dtor s j = .ok t := e
    rw [wp_dtor_eq hx] at e'
    cases e'
    exact sps_call_if _ _ _
  · obtain ⟨a, _, e1⟩ := bind_ok e
    obtain ⟨c, _, e2⟩ := bind_ok e1
    cases pure_ok e2
    rfl

theorem null_ok_step {s t : State} (hs : Inv s) (hn : null_ok s) (op : Op)
    (hk : op.keeps_null s = true) (e : step s op = .ok t) : null_ok t := by
  cases op with
  | sp_default => exact null_ok_sp_default hn e
  | sp_from_ptr p => exact null_ok_sp_from_ptr_deleter hn e
  | sp_from_ptr_deleter p d => exact null_ok_sp_from_ptr_deleter hn e
  | sp_from_null_deleter d => exact null_ok_sp_from_null_deleter hn e
  | sp_copy i => exact null_ok_sp_copy hn e
  | sp_alias i p => exact null_ok_sp_alias hn hk e
  | sp_move i => cases hk
  | sp_from_weak j => exact absurd e (sp_from_weak_not_ok s t j)
  | sp_dtor i => exact null_ok_sp_dtor hs hn e
  | sp_swap i k => exact null_ok_sp_swap hn e
  | sp_assign i k =>
    obtain ⟨s1, h1, e1⟩ := bind_ok e
    obtain ⟨s2, h2, e2⟩ := bind_ok e1
    exact null_ok_sp_dtor (Inv_sp_swap (Inv_sp_copy hs h1) h2)
      (null_ok_sp_swap (null_ok_sp_copy hn h1) h2) e2
  | sp_move_assign i k =>
    obtain ⟨s1, h1, e1⟩ := bind_ok e
    obtain ⟨s2, h2, e2⟩ := bind_ok e1
    exact null_ok_sp_dtor (Inv_sp_swap (Inv_sp_copy hs h1) h2)
      (null_ok_sp_swap (null_ok_sp_copy hn h1) h2) e2
  | sp_move_assign_tpl i k => cases hk
  | sp_reset i =>
    obtain ⟨s1, h1, e1⟩ := bind_ok e
    obtain ⟨s2, h2, e2⟩ := bind_ok e1
    exact null_ok_sp_dtor (Inv_sp_swap (Inv_sp_default hs h1) h2)
      (null_ok_sp_swap (null_ok_sp_default hn h1) h2) e2
  | sp_reset_ptr i p =>
    obtain ⟨s1, h1, e1⟩ := bind_ok e
    obtain ⟨s2, h2, e2⟩ := bind_ok e1
    exact null_ok_sp_dtor (Inv_sp_swap (Inv_sp_from_ptr_deleter hs h1) h2)
      (null_ok_sp_swap (null_ok_sp_from_ptr_deleter hn h1) h2) e2
  | wp_default => exact null_ok_of_sps_eq (sps_of_wp_step _ e (Or.inl rfl)) hn
  | wp_copy j => exact null_ok_of_sps_eq (sps_of_wp_step _ e (Or.inr (Or.inl ⟨j, rfl⟩))) hn
  | wp_move j =>
    exact null_ok_of_sps_eq (sps_of_wp_step _ e (Or.inr (Or.inr (Or.inl ⟨j, rfl⟩)))) hn
  | wp_from_shared i =>
    exact null_ok_of_sps_eq
      (sps_of_wp_step _ e (Or.inr (Or.inr (Or.inr (Or.inl ⟨i, rfl⟩))))) hn
  | wp_dtor j =>
    exact null_ok_of_sps_eq
      (sps_of_wp_step _ e (Or.inr (Or.inr (Or.inr (Or.inr (Or.inl ⟨j, rfl⟩)))))) hn
  | wp_swap j k =>
    exact null_ok_of_sps_eq
      (sps_of_wp_step _ e (Or.inr (Or.inr (Or.inr (Or.inr (Or.inr ⟨j, k, rfl⟩)))))) hn
  | wp_assign j k =>
    obtain ⟨s1, h1, e1⟩ := bind_ok e
    obtain ⟨s2, h2, e2⟩ := bind_ok e1
    have a1 := sps_of_wp_step (.wp_copy k) h1 (Or.inr (Or.inl ⟨k, rfl⟩))
    have a2 := sps_of_wp_step (.wp_swap _ _) h2
      (Or.inr (Or.inr (Or.inr (Or.inr (Or.inr ⟨_, _, rfl⟩)))))
    have a3 := sps_of_wp_step (.wp_dtor _) e2
      (Or.inr (Or.inr (Or.inr (Or.inr (Or.inl ⟨_, rfl⟩)))))
    exact null_ok_of_sps_eq (a3.trans (a2.trans a1)) hn
  | wp_assign_shared j i =>
    obtain ⟨s1, h1, e1⟩ := bind_ok e
    obtain ⟨s2, h2, e2⟩ := bind_ok e1
    have a1 := sps_of_wp_step (.wp_from_shared i) h1
      (Or.inr (Or.inr (Or.inr (Or.inl ⟨i, rfl⟩))))
    have a2 := sps_of_wp_step (.wp_swap _ _) h2
      (Or.inr (Or.inr (Or.inr (Or.inr (Or.inr ⟨_, _, rfl⟩)))))
    have a3 := sps_of_wp_step (.wp_dtor _) e2
      (Or.inr (Or.inr (Or.inr (Or.inr (Or.inl ⟨_, rfl⟩)))))
    exact null_ok_of_sps_eq (a3.trans (a2.trans a1)) hn
  | wp_move_assign j k =>
    obtain ⟨s1, h1, e1⟩ := bind_ok e
    obtain ⟨s2, h2, e2⟩ := bind_ok e1
    have a1 := sps_of_wp_step (.wp_move k) h1 (Or.inr (Or.inr (Or.inl ⟨k, rfl⟩)))
    have a2 := sps_of_wp_step (.wp_swap _ _) h2
      (Or.inr (Or.inr (Or.inr (Or.inr (Or.inr ⟨_, _, rfl⟩)))))
    have a3 := sps_of_wp_step (.wp_dtor _) e2
      (Or.inr (Or.inr (Or.inr (Or.inr (Or.inl ⟨_, rfl⟩)))))
    exact null_ok_of_sps_eq (a3.trans (a2.trans a1)) hn
  | wp_reset j =>
    obtain ⟨s1, h1, e1⟩ := bind_ok e
    obtain ⟨s2, h2, e2⟩ := bind_ok e1
    have a1 := sps_of_wp_step .wp_default h1 (Or.inl rfl)
    have a2 := sps_of_wp_step (.wp_swap _ _) h2
      (Or.inr (Or.inr (Or.inr (Or.inr (Or.inr ⟨_, _, rfl⟩)))))
    have a3 := sps_of_wp_step (.wp_dtor _) e2
      (Or.inr (Or.inr (Or.inr (Or.inr (Or.inl ⟨_, rfl⟩)))))
    exact null_ok_of_sps_eq (a3.trans (a2.trans a1)) hn
  | wp_lock j =>
    obtain ⟨w, hw, e1⟩ := bind_ok e
    obtain ⟨x, hx, e2⟩ := bind_ok e1
    split at e2
    · exact null_ok_sp_default hn e2
    · exact absurd e2 (sp_from_weak_not_ok s t j)

theorem reachable_of_plain {s : State} (h : ReachablePlain s) : Reachable s := by
  induction h with
  | init => exact Reachable.init
  | step op _ _ e ih => exact Reachable.step op ih e

theorem null_ok_of_plain {s : State} (h : ReachablePlain s) : null_ok s := by
  induction h with
  | init => exact null_ok_init
  | step op hr hk e ih =>
    exact null_ok_step (Inv_of_reachable (reachable_of_plain hr)) ih op hk e

/-- C17 (counterexample): the aliasing constructor applied to a
default-constructed handle and the address 7.  The state is reachable, and
the new handle holds no control block, yet `get()` is 7 and the boolean
conversion is true. -/
theorem C17_counterexample_alias_of_empty :
    Reachable (run [.sp_default, .sp_alias 0 7]) ∧
    (run [.sp_default, .sp_alias 0 7]).sp 1 = .ok { _pcb := none, _stored_ptr := 7 } ∧
    sp_use_count (run [.sp_default, .sp_alias 0 7]) 1 = .ok 0 ∧
    sp_get (run [.sp_default, .sp_alias 0 7]) 1 = .ok 7 ∧
    ((run [.sp_default, .sp_alias 0 7]).sp 1 >>= fun h => pure h.to_bool) = .ok true :=
  ⟨reachable_run _, rfl, rfl, rfl, rfl⟩

/-- C17 (amended): in every state reached without the move-constructor body
and without applying the aliasing constructor to a source that holds no
control block together with a non-null address, a live `shared_ptr` that
holds no control block observes the null address: `get()` is null and the
boolean conversion is false. -/
theorem C17_empty_implies_null (s : State) (hs : ReachablePlain s) (i : Nat)
    (h : shared_ptr) (hi : s.sp i = .ok h) (hp : h._pcb = none) :
    h._stored_ptr = 0 ∧ h.get = 0 ∧ h.to_bool = false ∧ sp_get s i = .ok 0 := by
  have h0 := null_ok_lookup (null_ok_of_plain hs) hi hp
  refine ⟨h0, h0, ?_, ?_⟩
  · simp [shared_ptr.to_bool, h0]
  · rw [sp_get_eq hi, h0]

/-- Witness for C17: `a(new T)` at 5, then `a.reset()`: the handle is empty
and null. -/
theorem C17_empty_implies_null_witness :
    ReachablePlain (run [.sp_from_ptr 5, .sp_reset 0]) ∧
    (run [.sp_from_ptr 5, .sp_reset 0]).sp 0 = .ok { _pcb := none, _stored_ptr := 0 } ∧
    sp_get (run [.sp_from_ptr 5, .sp_reset 0]) 0 = .ok 0 :=
  have hr : ReachablePlain (run [.sp_from_ptr 5, .sp_reset 0]) :=
    ReachablePlain.step (.sp_reset 0)
      (ReachablePlain.step (.sp_from_ptr 5) ReachablePlain.init rfl rfl) rfl rfl
  ⟨hr, rfl,
    (C17_empty_implies_null (run [.sp_from_ptr 5, .sp_reset 0]) hr 0
      { _pcb := none, _stored_ptr := 0 } rfl rfl).2.2.2⟩

/-! ## The simple variant (C18, C20) -/

theorem simple_sp_lookup {s : simple.State} {i : Nat} {h : simple.shared_ptr}
    (e : s.sp i = .ok h) : s.sps[i]? = some (some h) := by
  unfold simple.State.sp at e
  split at e
  · rename_i x hx
    cases e
    exact hx
  · cases e

theorem simple_sp_push_new (s : simple.State) (h : simple.shared_ptr) :
    (s.push_sp h).sp s.sps.length = .ok h := by
  simp [simple.State.sp, simple.State.push_sp]

theorem simple_sp_push_old {s : simple.State} {i : Nat} {x : simple.shared_ptr}
    (h : simple.shared_ptr) (e : s.sp i = .ok x) : (s.push_sp h).sp i = .ok x := by
  have hl := simple_sp_lookup e
  have hlt : i < s.sps.length := by
    by_contra hge
    rw [List.getElem?_eq_none (by omega)] at hl
    cases hl
  simp [simple.State.sp, simple.State.push_sp, List.getElem?_append_left hlt, hl]

theorem simple_sp_use_count_eq {s : simple.State} {i : Nat} {h : simple.shared_ptr}
    (e : s.sp i = .ok h) : simple.sp_use_count s i = .ok (h.use_count s.heap) := by
  unfold simple.sp_use_count
  rw [e, ok_bind]
  rfl

/-- C18 (counterexample): in the simple variant a default-constructed handle
reports `use_count()` 0, and after copy-constructing from it the source and
the copy both report 0, not 0 + 1. -/
theorem C18_counterexample_simple_copy_of_empty :
    (simple.sp_default simple.State.init >>= fun s => simple.sp_use_count s 0) = .ok 0 ∧
    (simple.sp_default simple.State.init >>= fun s => simple.sp_copy s 0 >>= fun t =>
      simple.sp_use_count t 0) = .ok 0 ∧
    (simple.sp_default simple.State.init >>= fun s => simple.sp_copy s 0 >>= fun t =>
      simple.sp_use_count t 1) = .ok 0 ∧
    (simple.sp_default simple.State.init >>= fun s => simple.sp_copy s 0 >>= fun t =>
      simple.sp_use_count t 0) ≠ .ok (0 + 1) ∧
    (simple.sp_default simple.State.init >>= fun s => simple.sp_copy s 0 >>= fun t =>
      simple.sp_use_count t 1) ≠ .ok (0 + 1) := by
  refine ⟨rfl, rfl, rfl, ?_, ?_⟩
  · intro h
    have e : (simple.sp_default simple.State.init >>= fun s => simple.sp_copy s 0 >>= fun t =>
        simple.sp_use_count t 0) = .ok 0 := rfl
    rw [e] at h
    exact absurd (Except.ok.inj h) (by decide)
  · intro h
    have e : (simple.sp_default simple.State.init >>= fun s => simple.sp_copy s 0 >>= fun t =>
        simple.sp_use_count t 1) = .ok 0 := rfl
    rw [e] at h
    exact absurd (Except.ok.inj h) (by decide)

/-- C18 (amended): in the simple variant and in any state, the first
construction of a program included, a `shared_ptr` constructed from any
pointer `p` (every non-null `p` in particular) reports `use_count() = 1`.
Copy-constructing from a live handle gives a handle with the same members and
leaves the source as it was; when the source holds a control block whose
`use_count()` is `n`, source and copy both report `n + 1`, and when the source
is empty both report 0.  The demo prints 1 for `pa`, then 2 and 2 for `pa`
and `pb`. -/
theorem C18_simple_construct_copy (s : simple.State) (p : Nat) :
    (∃ t, simple.sp_from_ptr s p = .ok t ∧
      t.sp s.sps.length = .ok { stored_ptr := p, pcb := some s.next_block } ∧
      simple.sp_get t s.sps.length = .ok p ∧
      simple.sp_use_count t s.sps.length = .ok 1) ∧
    (∀ (i : Nat) (h : simple.shared_ptr), s.sp i = .ok h →
      ∃ t, simple.sp_copy s i = .ok t ∧
        t.sp i = .ok h ∧
        t.sp s.sps.length = .ok { stored_ptr := h.stored_ptr, pcb := h.pcb } ∧
        simple.sp_use_count t i
          = .ok (if h.pcb.isSome then h.use_count s.heap + 1 else 0) ∧
        simple.sp_use_count t s.sps.length
          = .ok (if h.pcb.isSome then h.use_count s.heap + 1 else 0)) ∧
    ((simple.sp_from_ptr simple.State.init 5 >>= fun t => simple.sp_use_count t 0) = .ok 1 ∧
      (simple.sp_from_ptr simple.State.init 5 >>= fun t => simple.sp_copy t 0 >>= fun u =>
        simple.sp_use_count u 0) = .ok 2 ∧
      (simple.sp_from_ptr simple.State.init 5 >>= fun t => simple.sp_copy t 0 >>= fun u =>
        simple.sp_use_count u 1) = .ok 2) := by
  refine ⟨?_, ?_, rfl, rfl, rfl⟩
  · have hnew : (((s.alloc p).upd s.next_block simple.control_block.acquire).push_sp
        { stored_ptr := p, pcb := some s.next_block }).sp s.sps.length
        = .ok { stored_ptr := p, pcb := some s.next_block } :=
      simple_sp_push_new ((s.alloc p).upd s.next_block simple.control_block.acquire) _
    refine ⟨_, rfl, hnew, ?_, ?_⟩
    · unfold simple.sp_get
      rw [hnew, ok_bind]
      rfl
    · rw [simple_sp_use_count_eq hnew]
      simp [simple.shared_ptr.use_count, simple.control_block.use_count, simple.State.push_sp,
        simple.State.upd, simple.State.alloc, simple.control_block.acquire,
        simple.control_block.ctor]
  · intro i h hi
    cases hp : h.pcb with
    | none =>
      have he : simple.sp_copy s i = .ok (s.push_sp
          { stored_ptr := h.stored_ptr, pcb := none }) := by
        unfold simple.sp_copy
        rw [hi, ok_bind]
        simp only [hp]
        rfl
      have hold := simple_sp_push_old { stored_ptr := h.stored_ptr, pcb := none } hi
      have hnew := simple_sp_push_new s { stored_ptr := h.stored_ptr, pcb := none }
      refine ⟨_, he, hold, hnew, ?_, ?_⟩
      · rw [simple_sp_use_count_eq hold]
        simp [simple.shared_ptr.use_count, hp]
      · rw [simple_sp_use_count_eq hnew]
        simp [simple.shared_ptr.use_count]
    | some b =>
      have he : simple.sp_copy s i = .ok ((s.upd b simple.control_block.acquire).push_sp
          { stored_ptr := h.stored_ptr, pcb := some b }) := by
        unfold simple.sp_copy
        rw [hi, ok_bind]
        simp only [hp]
        rfl
      have hold : ((s.upd b simple.control_block.acquire).push_sp
          { stored_ptr := h.stored_ptr, pcb := some b }).sp i = .ok h :=
        simple_sp_push_old (s := s.upd b simple.control_block.acquire) _ hi
      have hnew : ((s.upd b simple.control_block.acquire).push_sp
          { stored_ptr := h.stored_ptr, pcb := some b }).sp s.sps.length
          = .ok { stored_ptr := h.stored_ptr, pcb := some b } :=
        simple_sp_push_new (s.upd b simple.control_block.acquire) _
      refine ⟨_, he, hold, hnew, ?_, ?_⟩
      · rw [simple_sp_use_count_eq hold]
        simp [simple.shared_ptr.use_count, hp, simple.control_block.use_count,
          simple.State.push_sp, simple.State.upd, simple.control_block.acquire]
      · rw [simple_sp_use_count_eq hnew]
        simp [simple.shared_ptr.use_count, hp, simple.control_block.use_count,
          simple.State.push_sp, simple.State.upd, simple.control_block.acquire]

/-- Witness for C18: the demo of `test.cpp`.  In the initial state, where no
handle exists, `pa(new int)` at address 5 reports 1; in the state after it,
`pb = pa` makes both handles report 2. -/
theorem C18_simple_construct_copy_witness :
    simple.State.init.sps = [] ∧
    (∃ t, simple.sp_from_ptr simple.State.init 5 = .ok t ∧
      t.sp 0 = .ok { stored_ptr := 5, pcb := some 0 } ∧
      simple.sp_use_count t 0 = .ok 1) ∧
    ((((simple.State.init.alloc 5).upd 0 simple.control_block.acquire).push_sp
        { stored_ptr := 5, pcb := some 0 }).sp 0 = .ok { stored_ptr := 5, pcb := some 0 } ∧
      ∃ t, simple.sp_copy (((simple.State.init.alloc 5).upd 0
          simple.control_block.acquire).push_sp { stored_ptr := 5, pcb := some 0 }) 0 = .ok t ∧
        simple.sp_use_count t 0 = .ok 2 ∧ simple.sp_use_count t 1 = .ok 2) := by
  obtain ⟨⟨t0, a1, a2, _, a4⟩, _, _⟩ := C18_simple_construct_copy simple.State.init 5
  obtain ⟨_, hcopy, _⟩ :=
    C18_simple_construct_copy (((simple.State.init.alloc 5).upd 0
      simple.control_block.acquire).push_sp { stored_ptr := 5, pcb := some 0 }) 6
  obtain ⟨u, g1, _, _, g4, g5⟩ := hcopy 0 { stored_ptr := 5, pcb := some 0 } rfl
  exact ⟨rfl, ⟨t0, a1, a2, a4⟩, rfl, u, g1, g4, g5⟩

/-- C20 (code at the failing inputs).  `a(new T)` at 5, then `a.reset(p)` with
`p = 7`: the simple variant reports `use_count()` 0 (the new block is never
acquired), `sp.h` reports 1.  `a(new T)` at 5, then `a = a`: the simple
variant resets `a` before it reads `other`, so `a` ends empty and null with
`use_count()` 0 and the object has been deleted, while in `sp.h` the handle
still reports 1 and address 5 and the deleter has not run. -/
theorem C20_simple_differs_from_complete :
    (simple.sp_from_ptr simple.State.init 5 >>= fun s => simple.sp_reset_ptr s 0 7 >>= fun t =>
      simple.sp_use_count t 0) = .ok 0 ∧
    (simple.sp_from_ptr simple.State.init 5 >>= fun s => simple.sp_reset_ptr s 0 7 >>= fun t =>
      simple.sp_get t 0) = .ok 7 ∧
    sp_use_count (run [.sp_from_ptr 5, .sp_reset_ptr 0 7]) 0 = .ok 1 ∧
    sp_get (run [.sp_from_ptr 5, .sp_reset_ptr 0 7]) 0 = .ok 7 ∧
    (simple.sp_from_ptr simple.State.init 5 >>= fun s => simple.sp_assign s 0 0 >>= fun t =>
      simple.sp_use_count t 0) = .ok 0 ∧
    (simple.sp_from_ptr simple.State.init 5 >>= fun s => simple.sp_assign s 0 0 >>= fun t =>
      simple.sp_get t 0) = .ok 0 ∧
    (simple.sp_from_ptr simple.State.init 5 >>= fun s => simple.sp_assign s 0 0 >>= fun t =>
      pure (t.heap 0).object_deletes) = .ok 1 ∧
    sp_use_count (run [.sp_from_ptr 5, .sp_assign 0 0]) 0 = .ok 1 ∧
    sp_get (run [.sp_from_ptr 5, .sp_assign 0 0]) 0 = .ok 5 ∧
    ((run [.sp_from_ptr 5, .sp_assign 0 0]).heap 0).deleter_calls = 0 :=
  ⟨rfl, rfl, rfl, rfl, rfl, rfl, rfl, rfl, rfl, rfl⟩

end POC
